import Mathlib

/-!
Verification of the WeChat MP publishing script (`scripts/wechat_mp_publish.mjs`).

The script converts a Markdown document to platform-safe HTML: it parses the
document, rewrites image references through an upload side-channel deduplicated
by SHA-256 fingerprint, renders HTML, and applies a fixed chain of ten
string-to-string compatibility transforms.  This file embeds the pure parts of
the script (the transform chain, title extraction, digest extraction, filename
guessing, and the image-rewriting walk with its collaborators abstracted as
functions) and proves properties of the embedding.

JavaScript strings are modelled as `List Char` (JS `Array.from` semantics,
i.e. Unicode codepoints); each regex of the source is modelled by a dedicated
scanner that mirrors the regex's matching semantics on the patterns involved.
-/

/-- ASCII lowercasing, modelling the case-insensitive `i` regex flag of the
source (all patterns involved are ASCII). -/
def toLowerAscii (c : Char) : Char :=
  if 'A' ≤ c ∧ c ≤ 'Z' then Char.ofNat (c.toNat + 32) else c

/-- Codepoints that JavaScript's `\s` class (and `String.prototype.trim`)
treats as whitespace. -/
def jsWsCodes : List Nat :=
  [9, 10, 11, 12, 13, 32, 160, 0x1680, 0x2000, 0x2001, 0x2002, 0x2003, 0x2004,
   0x2005, 0x2006, 0x2007, 0x2008, 0x2009, 0x200a, 0x2028, 0x2029, 0x202f,
   0x205f, 0x3000, 0xfeff]

/-- JS whitespace test (`\s`). -/
def isJsWs (c : Char) : Bool := jsWsCodes.contains c.toNat

/-- JS word character test (`\b` boundaries are relative to `[A-Za-z0-9_]`). -/
def isWordChar (c : Char) : Bool :=
  ('a' ≤ c && c ≤ 'z') || ('A' ≤ c && c ≤ 'Z') || ('0' ≤ c && c ≤ '9') || c == '_'

/-- Exact (case-sensitive) prefix test on character lists. -/
def isPrefixL : List Char → List Char → Bool
  | [], _ => true
  | _ :: _, [] => false
  | p :: ps, c :: cs => (p == c) && isPrefixL ps cs

/-- Case-insensitive prefix test (models matching a literal pattern under the
`i` flag). -/
def isPrefixCI : List Char → List Char → Bool
  | [], _ => true
  | _ :: _, [] => false
  | p :: ps, c :: cs => (toLowerAscii p == toLowerAscii c) && isPrefixCI ps cs

/-- Exact substring test. -/
def containsL (pat : List Char) (s : List Char) : Bool :=
  match s with
  | [] => isPrefixL pat []
  | c :: cs => isPrefixL pat (c :: cs) || containsL pat cs

/-- Case-insensitive substring test. -/
def containsCI (pat : List Char) (s : List Char) : Bool :=
  match s with
  | [] => isPrefixCI pat []
  | c :: cs => isPrefixCI pat (c :: cs) || containsCI pat cs

/-- Case-insensitive substring test on strings. -/
def containsCIS (pat s : String) : Bool := containsCI pat.data s.data

/-- Exact substring test on strings. -/
def containsLS (pat s : String) : Bool := containsL pat.data s.data

/-- JS `String.prototype.trim` on a character list. -/
def jsTrimL (s : List Char) : List Char :=
  ((s.dropWhile isJsWs).reverse.dropWhile isJsWs).reverse

/-- JS `String.prototype.trim`. -/
def jsTrimS (s : String) : String := String.mk (jsTrimL s.data)

/-- Generic `String.prototype.replace(regex-with-g, ...)` loop, structurally
recursive on a fuel argument (each scan step consumes at least one character,
so fuel `s.length` is always sufficient; the fuel-exhausted branch is
unreachable from `scanReplace`).  A matcher receives the current suffix;
`some (rep, k)` means the regex matched a prefix of the suffix consuming
`1 + k` characters which are replaced by `rep` (scanning resumes after the
match, as with a `g`-flagged regex); `none` means no match starts here, so
one character is copied. -/
def scanReplaceF (m : List Char → Option (List Char × Nat)) : Nat → List Char → List Char
  | _, [] => []
  | 0, s => s
  | fuel + 1, c :: cs =>
    match m (c :: cs) with
    | some (rep, k) => rep ++ scanReplaceF m fuel (cs.drop k)
    | none => c :: scanReplaceF m fuel cs

/-- Wrapper: `String.prototype.replace` with a `g`-flagged regex. -/
def scanReplace (m : List Char → Option (List Char × Nat)) (s : List Char) : List Char :=
  scanReplaceF m s.length s

/-- Generic `String.prototype.match(regex-with-g)` loop: collects the list of
non-overlapping matches.  Fuel as in `scanReplaceF`. -/
def scanCollectF (m : List Char → Option (List Char × Nat)) : Nat → List Char → List (List Char)
  | _, [] => []
  | 0, _ => []
  | fuel + 1, c :: cs =>
    match m (c :: cs) with
    | some (txt, k) => txt :: scanCollectF m fuel (cs.drop k)
    | none => scanCollectF m fuel cs

/-- Wrapper: `String.prototype.match` with a `g`-flagged regex. -/
def scanCollect (m : List Char → Option (List Char × Nat)) (s : List Char) : List (List Char) :=
  scanCollectF m s.length s

/-- Split at the first (leftmost) occurrence of any of the given
case-insensitive close delimiters, all of length `closeLen`: returns the
content before the delimiter and the rest after it.  Models the lazy
`[\s\S]*?` up to a literal close pattern. -/
def splitAtFirstCI (closes : List (List Char)) (closeLen : Nat) :
    List Char → Option (List Char × List Char)
  | [] => none
  | c :: cs =>
    if closes.any (fun p => isPrefixCI p (c :: cs)) then
      some ([], (c :: cs).drop closeLen)
    else
      match splitAtFirstCI closes closeLen cs with
      | some (pre, rest) => some (c :: pre, rest)
      | none => none

/-- First index where `pat` occurs exactly, or `none`. -/
def indexOfAuxL (pat : List Char) : List Char → Option Nat
  | [] => if isPrefixL pat [] then some 0 else none
  | c :: cs =>
    if isPrefixL pat (c :: cs) then some 0
    else (indexOfAuxL pat cs).map (· + 1)

/-- First index at or after `start` where `pat` occurs exactly in `s`, models
JS `String.prototype.indexOf(pat, start)`. -/
def indexOfFromL (pat : List Char) (start : Nat) (s : List Char) : Option Nat :=
  (indexOfAuxL pat (s.drop start)).map (· + start)

/-! ### `stripTags` (source lines 254-256) -/

/-- Matcher for `/<[^>]+>/g` with a configurable replacement (the source uses
`""` inside `stripTags` and `" "` inside `autoDigestFromMarkdown`). -/
def tagMatch (rep : List Char) (s : List Char) : Option (List Char × Nat) :=
  match s with
  | '<' :: rest =>
    let mid := rest.takeWhile (fun c => c != '>')
    match rest.dropWhile (fun c => c != '>') with
    | '>' :: _ => if mid.isEmpty then none else some (rep, mid.length + 1)
    | _ => none
  | _ => none

/-- Matcher for `/\s+/g` replaced by a single space. -/
def wsRunMatch (s : List Char) : Option (List Char × Nat) :=
  match s with
  | c :: cs => if isJsWs c then some ([' '], (cs.takeWhile isJsWs).length) else none
  | [] => none

/-- The helper `stripTags`: drop all HTML tags, collapse whitespace runs, trim. -/
def stripTags (s : List Char) : List Char :=
  jsTrimL (scanReplace wsRunMatch (scanReplace (tagMatch []) s))

/-! ### Stage 1: `stripTaskListInputs` (source lines 247-252) -/

/-- Test in the style of `/\bword\b/i`: does `w` occur in `s` with non-word characters
(or the string ends) on both sides?  `prevIsWord` tracks the character class
of the previous character. -/
def hasWordCIAux (w : List Char) (prevIsWord : Bool) (s : List Char) : Bool :=
  match s with
  | [] => false
  | c :: cs =>
    (!prevIsWord && isPrefixCI w (c :: cs) &&
      (match (c :: cs).drop w.length with
       | [] => true
       | d :: _ => !isWordChar d)) || hasWordCIAux w (isWordChar c) cs

/-- Matcher for `/<input\b[^>]*type="checkbox"[^>]*>/gi`; the replacement is
`"[x] "` when the matched tag contains the word `checked`, else `"[ ] "`. -/
def inputCheckboxMatch (s : List Char) : Option (List Char × Nat) :=
  if isPrefixCI ("<input".data) s then
    let rest := s.drop 6
    let bOk := match rest with
      | [] => true
      | d :: _ => !isWordChar d
    if bOk then
      let attrs := rest.takeWhile (fun c => c != '>')
      match rest.dropWhile (fun c => c != '>') with
      | '>' :: _ =>
        if containsCI ("type=\"checkbox\"".data) attrs then
          let whole := s.take (6 + attrs.length + 1)
          some ((if hasWordCIAux ("checked".data) false whole then "[x] " else "[ ] ").data,
            6 + attrs.length)
        else none
      | _ => none
    else none
  else none

/-- Transform stage 1: replace checkbox `<input>` elements by literal
`"[x] "` / `"[ ] "` text. -/
def stripTaskListInputs (html : String) : String :=
  String.mk (scanReplace inputCheckboxMatch html.data)

/-! ### Stage 2: `replaceTables` (source lines 258-268) -/

/-- Matcher for `/<tr[\s\S]*?<\/tr>/gi` (collecting, not replacing). -/
def rowMatch (s : List Char) : Option (List Char × Nat) :=
  if isPrefixCI ("<tr".data) s then
    match splitAtFirstCI [("</tr>".data)] 5 (s.drop 3) with
    | some (inner, _) => some (s.take (3 + inner.length + 5), 3 + inner.length + 4)
    | none => none
  else none

/-- Matcher for `/<(?:th|td)[\s\S]*?<\/(?:th|td)>/gi`. -/
def cellMatch (s : List Char) : Option (List Char × Nat) :=
  if isPrefixCI ("<th".data) s || isPrefixCI ("<td".data) s then
    match splitAtFirstCI [("</th>".data), ("</td>".data)] 5 (s.drop 3) with
    | some (inner, _) => some (s.take (3 + inner.length + 5), 3 + inner.length + 4)
    | none => none
  else none

/-- The replacement computed for one matched `<table>...</table>` block:
each row becomes its cells' stripped text joined by `" | "`, rows joined by
`<br>`, the whole wrapped in `<p>...</p>` (or `""` when there are no rows). -/
def tableReplacement (whole : List Char) : List Char :=
  let rows := scanCollect rowMatch whole
  let lines := rows.map (fun row =>
    List.intercalate (" | ".data) ((scanCollect cellMatch row).map stripTags))
  if rows.isEmpty then []
  else ("<p>".data) ++ List.intercalate ("<br>".data) lines ++ ("</p>".data)

/-- Matcher for `/<table[\s\S]*?<\/table>/gi`. -/
def tableMatch (s : List Char) : Option (List Char × Nat) :=
  if isPrefixCI ("<table".data) s then
    match splitAtFirstCI [("</table>".data)] 8 (s.drop 6) with
    | some (inner, _) =>
      let len := 6 + inner.length + 8
      some (tableReplacement (s.take len), len - 1)
    | none => none
  else none

/-- Transform stage 2: flatten each table into a single paragraph. -/
def replaceTables (html : String) : String :=
  String.mk (scanReplace tableMatch html.data)

/-! ### Stage 3: `replaceHr` (source lines 270-272) -/

/-- Matcher for `/<hr\s*\/?>/gi`, replaced by the empty string. -/
def hrMatch (s : List Char) : Option (List Char × Nat) :=
  if isPrefixCI ("<hr".data) s then
    let rest := s.drop 3
    let ws := rest.takeWhile isJsWs
    match rest.dropWhile isJsWs with
    | '/' :: '>' :: _ => some ([], 3 + ws.length + 1)
    | '>' :: _ => some ([], 3 + ws.length)
    | _ => none
  else none

/-- Transform stage 3: delete horizontal rules. -/
def replaceHr (html : String) : String :=
  String.mk (scanReplace hrMatch html.data)

/-! ### Stage 4: `stripLinks` (source lines 274-276) -/

/-- Matcher for `/<a\b[^>]*>([\s\S]*?)<\/a>/gi`, replaced by the captured
body `$1`. -/
def linkStripMatch (s : List Char) : Option (List Char × Nat) :=
  if isPrefixCI ("<a".data) s then
    let rest := s.drop 2
    let bOk := match rest with
      | [] => true
      | d :: _ => !isWordChar d
    if bOk then
      let attrs := rest.takeWhile (fun c => c != '>')
      match rest.dropWhile (fun c => c != '>') with
      | '>' :: rest3 =>
        match splitAtFirstCI [("</a>".data)] 4 rest3 with
        | some (body, _) => some (body, 2 + attrs.length + 1 + body.length + 3)
        | none => none
      | _ => none
    else none
  else none

/-- Transform stage 4: unwrap hyperlinks to their inner content. -/
def stripLinks (html : String) : String :=
  String.mk (scanReplace linkStripMatch html.data)

/-! ### Stage 5: `flattenListItemParagraphs` (source lines 285-289) -/

/-- Lazy scan for the tail `([\s\S]*?)<\/p>\s*<\/li>` of the list-item
flattening regex: returns the minimal body followed by `</p>`, optional
whitespace and `</li>`, together with the rest after `</li>`. -/
def liPBodyScan : List Char → Option (List Char × List Char)
  | [] => none
  | c :: cs =>
    if isPrefixCI ("</p>".data) (c :: cs) ∧
        isPrefixCI ("</li>".data) (((c :: cs).drop 4).dropWhile isJsWs) then
      some ([], (((c :: cs).drop 4).dropWhile isJsWs).drop 5)
    else
      match liPBodyScan cs with
      | some (body, rest) => some (c :: body, rest)
      | none => none

/-- Matcher for `/<li\b([^>]*)>\s*<p>([\s\S]*?)<\/p>\s*<\/li>/gi`, replaced by
`<li${attrs}>${body}</li>`. -/
def liFlattenMatch (s : List Char) : Option (List Char × Nat) :=
  if isPrefixCI ("<li".data) s then
    let rest := s.drop 3
    let bOk := match rest with
      | [] => true
      | d :: _ => !isWordChar d
    if bOk then
      let attrs := rest.takeWhile (fun c => c != '>')
      match rest.dropWhile (fun c => c != '>') with
      | '>' :: rest3 =>
        let rest4 := rest3.dropWhile isJsWs
        if isPrefixCI ("<p>".data) rest4 then
          match liPBodyScan (rest4.drop 3) with
          | some (body, restEnd) =>
            some (("<li".data) ++ attrs ++ ('>' :: body) ++ ("</li>".data),
              s.length - restEnd.length - 1)
          | none => none
        else none
      | _ => none
    else none
  else none

/-- Transform stage 5: unwrap a lone paragraph making up a list item's body. -/
def flattenListItemParagraphs (html : String) : String :=
  String.mk (scanReplace liFlattenMatch html.data)

/-! ### Stage 6: `removeEmptyListItems` (source lines 278-283) -/

/-- Matcher for `/<li\b[^>]*>([\s\S]*?)<\/li>/gi` with the source's handler:
keep the whole match when the body's stripped text is non-empty, else drop
it. -/
def liEmptyMatch (s : List Char) : Option (List Char × Nat) :=
  if isPrefixCI ("<li".data) s then
    let rest := s.drop 3
    let bOk := match rest with
      | [] => true
      | d :: _ => !isWordChar d
    if bOk then
      let attrs := rest.takeWhile (fun c => c != '>')
      match rest.dropWhile (fun c => c != '>') with
      | '>' :: rest3 =>
        match splitAtFirstCI [("</li>".data)] 5 rest3 with
        | some (body, _) =>
          let len := 3 + attrs.length + 1 + body.length + 5
          some ((if (stripTags body).isEmpty then [] else s.take len), len - 1)
        | none => none
      | _ => none
    else none
  else none

/-- Transform stage 6: drop list items whose stripped text is empty. -/
def removeEmptyListItems (html : String) : String :=
  String.mk (scanReplace liEmptyMatch html.data)

/-! ### Stage 7: `convertListsToParagraphs` (source lines 291-316) -/

/-- Matcher for `/<li\b[^>]*>[\s\S]*?<\/li>/gi` (collecting the items of a
list body). -/
def liItemMatch (s : List Char) : Option (List Char × Nat) :=
  if isPrefixCI ("<li".data) s then
    let rest := s.drop 3
    let bOk := match rest with
      | [] => true
      | d :: _ => !isWordChar d
    if bOk then
      let attrs := rest.takeWhile (fun c => c != '>')
      match rest.dropWhile (fun c => c != '>') with
      | '>' :: rest3 =>
        match splitAtFirstCI [("</li>".data)] 5 rest3 with
        | some (body, _) =>
          let len := 3 + attrs.length + 1 + body.length + 5
          some (s.take len, len - 1)
        | none => none
      | _ => none
    else none
  else none

/-- Model of `li.replace(/^<li\b[^>]*>|<\/li>$/gi, "")`: strip the leading `<li...>`
tag and a trailing `</li>`. -/
def stripLiWrap (li : List Char) : List Char :=
  let s1 :=
    if isPrefixCI ("<li".data) li then
      let rest := li.drop 3
      let bOk := match rest with
        | [] => true
        | d :: _ => !isWordChar d
      if bOk then
        match rest.dropWhile (fun c => c != '>') with
        | '>' :: rest3 => rest3
        | _ => li
      else li
    else li
  if isPrefixCI ("</li>".data) (s1.drop (s1.length - 5)) then s1.take (s1.length - 5)
  else s1

/-- Lazy scan for `([\s\S]*?)<\/p>\s*$`: the minimal body whose remainder is
`</p>` followed only by whitespace. -/
def pEndScan : List Char → Option (List Char)
  | [] => none
  | c :: cs =>
    if isPrefixCI ("</p>".data) (c :: cs) && ((c :: cs).drop 4).all isJsWs then some []
    else (pEndScan cs).map (fun b => c :: b)

/-- Model of `body.replace(/^\s*<p[^>]*>([\s\S]*?)<\/p>\s*$/i, "$1")`: when the whole
body is one paragraph element (modulo surrounding whitespace), return its
inner content, else the body unchanged. -/
def unwrapItemP (body : List Char) : List Char :=
  let r := body.dropWhile isJsWs
  if isPrefixCI ("<p".data) r then
    match (r.drop 2).dropWhile (fun c => c != '>') with
    | '>' :: r4 =>
      match pEndScan r4 with
      | some inner => inner
      | none => body
    | _ => body
  else body

/-- The source's `<ul>` handler: one `<p>• ...</p>` per non-empty item. -/
def ulBodyToParagraphs (list : List Char) : List Char :=
  let items := scanCollect liItemMatch list
  let lines := items.map (fun li =>
    let body := jsTrimL (stripLiWrap li)
    let unwrapped := jsTrimL (unwrapItemP body)
    if unwrapped.isEmpty then [] else ("<p>• ".data) ++ unwrapped ++ ("</p>".data))
  List.flatten (lines.filter (fun l => !l.isEmpty))

/-- The source's `<ol>` handler: one `<p>i. ...</p>` per non-empty item,
numbered by the item's position among all matched items. -/
def olBodyToParagraphs (list : List Char) : List Char :=
  let items := scanCollect liItemMatch list
  let lines := items.enum.map (fun p =>
    let body := jsTrimL (stripLiWrap p.2)
    let unwrapped := jsTrimL (unwrapItemP body)
    if unwrapped.isEmpty then []
    else ("<p>".data) ++ (toString (p.1 + 1)).data ++ (". ".data) ++ unwrapped ++ ("</p>".data))
  List.flatten (lines.filter (fun l => !l.isEmpty))

/-- Matcher for `/<ul\b[^>]*>([\s\S]*?)<\/ul>/gi` with the `<ul>` handler. -/
def ulMatch (s : List Char) : Option (List Char × Nat) :=
  if isPrefixCI ("<ul".data) s then
    let rest := s.drop 3
    let bOk := match rest with
      | [] => true
      | d :: _ => !isWordChar d
    if bOk then
      let attrs := rest.takeWhile (fun c => c != '>')
      match rest.dropWhile (fun c => c != '>') with
      | '>' :: rest3 =>
        match splitAtFirstCI [("</ul>".data)] 5 rest3 with
        | some (list, _) => some (ulBodyToParagraphs list, 3 + attrs.length + 1 + list.length + 4)
        | none => none
      | _ => none
    else none
  else none

/-- Matcher for `/<ol\b[^>]*>([\s\S]*?)<\/ol>/gi` with the `<ol>` handler. -/
def olMatch (s : List Char) : Option (List Char × Nat) :=
  if isPrefixCI ("<ol".data) s then
    let rest := s.drop 3
    let bOk := match rest with
      | [] => true
      | d :: _ => !isWordChar d
    if bOk then
      let attrs := rest.takeWhile (fun c => c != '>')
      match rest.dropWhile (fun c => c != '>') with
      | '>' :: rest3 =>
        match splitAtFirstCI [("</ol>".data)] 5 rest3 with
        | some (list, _) => some (olBodyToParagraphs list, 3 + attrs.length + 1 + list.length + 4)
        | none => none
      | _ => none
    else none
  else none

/-- Transform stage 7: replace lists by bullet / numbered paragraphs. -/
def convertListsToParagraphs (html : String) : String :=
  String.mk (scanReplace olMatch (scanReplace ulMatch html.data))

/-! ### Stage 8: `convertHeadings` (source lines 318-331) -/

/-- Generic matcher for `/<hN\b[^>]*>([\s\S]*?)<\/hN>/gi` with replacement
built from the captured body. -/
def hMatch (openPat closePat : List Char) (mk : List Char → List Char)
    (s : List Char) : Option (List Char × Nat) :=
  if isPrefixCI openPat s then
    let rest := s.drop openPat.length
    let bOk := match rest with
      | [] => true
      | d :: _ => !isWordChar d
    if bOk then
      let attrs := rest.takeWhile (fun c => c != '>')
      match rest.dropWhile (fun c => c != '>') with
      | '>' :: rest3 =>
        match splitAtFirstCI [closePat] closePat.length rest3 with
        | some (body, _) =>
          some (mk body, openPat.length + attrs.length + 1 + body.length + closePat.length - 1)
        | none => none
      | _ => none
    else none
  else none

/-- The source's styled `<h2>` replacement prefix. -/
def h2PrefixL : List Char :=
  ("<h2 style=\"padding:1px 12.5px;color:#fff;margin:1.2em 0 1em;border-radius:4px;display:inline-block;background-color:rgb(72,112,172);font-size:1.3em;visibility:visible;\"><span leaf=\"\" style=\"visibility:visible;\">").data

/-- The source's styled `<h3>` replacement prefix. -/
def h3PrefixL : List Char :=
  ("<h3 style=\"padding:0;color:rgb(72,112,172);margin:1.2em 0 1em;font-size:1.3em;\"><span leaf=\"\">").data

/-- Transform stage 8: drop `<h1>` blocks, restyle `<h2>` and `<h3>`. -/
def convertHeadings (html : String) : String :=
  String.mk
    (scanReplace (hMatch ("<h3".data) ("</h3>".data)
        (fun b => h3PrefixL ++ b ++ ("</span></h3>".data)))
      (scanReplace (hMatch ("<h2".data) ("</h2>".data)
          (fun b => h2PrefixL ++ b ++ ("</span></h2>".data)))
        (scanReplace (hMatch ("<h1".data) ("</h1>".data) (fun _ => [])) html.data)))

/-! ### Stage 9: `styleParagraphs` (source lines 333-338) -/

/-- Matcher replacing one literal case-insensitive pattern by a fixed
replacement. -/
def litReplaceCIMatch (pat rep : List Char) (s : List Char) : Option (List Char × Nat) :=
  if isPrefixCI pat s then some (rep, pat.length - 1) else none

/-- The source's styled `<p>` opening tag. -/
def pStyleL : List Char :=
  ("<p style=\"margin:10px 0;letter-spacing:0;word-break:break-word;line-height:1.75;color:#242424\">").data

/-- The source's styled `<blockquote>` opening tag. -/
def bqStyleL : List Char :=
  ("<blockquote style=\"margin:12px 0;padding-left:12px;border-left:3px solid #e0e0e0;letter-spacing:0;word-break:break-word;color:#3a3a3a;line-height:1.75\">").data

/-- Transform stage 9: inject inline styles on paragraphs and blockquotes. -/
def styleParagraphs (html : String) : String :=
  String.mk (scanReplace (litReplaceCIMatch ("<blockquote>".data) bqStyleL)
    (scanReplace (litReplaceCIMatch ("<p>".data) pStyleL) html.data))

/-! ### Stage 10: `applyTheme` (source lines 340-349) -/

/-- Matcher for `/<a\b([^>]*)>/gi`, replaced by
`<a $1 style="color:#576b95;font-weight:600;text-decoration:none">`. -/
def themeLinkMatch (s : List Char) : Option (List Char × Nat) :=
  if isPrefixCI ("<a".data) s then
    let rest := s.drop 2
    let bOk := match rest with
      | [] => true
      | d :: _ => !isWordChar d
    if bOk then
      let attrs := rest.takeWhile (fun c => c != '>')
      match rest.dropWhile (fun c => c != '>') with
      | '>' :: _ =>
        some (("<a ".data) ++ attrs ++
          (" style=\"color:#576b95;font-weight:600;text-decoration:none\">").data,
          2 + attrs.length)
      | _ => none
    else none
  else none

/-- The source's styled `<code>` replacement. -/
def codeStyleRepL : List Char :=
  ("<code style=\"background:#f7f7f7;color:#202124;padding:2px 4px;border-radius:4px\">").data

/-- The literal prefix of the `/<pre><code class="language-[^"]*">/gi`
pattern. -/
def preCodePatL : List Char := ("<pre><code class=\"language-").data

/-- The source's styled `<pre><code>` replacement. -/
def preCodeRepL : List Char :=
  ("<pre style=\"background:#f7f7f7;color:#202124;padding:12px;border-radius:8px;overflow:auto\"><code>").data

/-- Matcher for `/<pre><code class="language-[^"]*">/gi`. -/
def preCodeMatch (s : List Char) : Option (List Char × Nat) :=
  if isPrefixCI preCodePatL s then
    let rest := s.drop preCodePatL.length
    let lang := rest.takeWhile (fun c => c != '"')
    match rest.dropWhile (fun c => c != '"') with
    | '"' :: '>' :: _ => some (preCodeRepL, preCodePatL.length + lang.length + 1)
    | _ => none
  else none

/-- An apostrophe character (codepoint 39). -/
def aposChar : Char := Char.ofNat 39

/-- The source's base body style (the font-family names are wrapped in
apostrophes). -/
def bodyStyleL : List Char :=
  ("color:#242424;padding:8px 0;line-height:1.75;font-size:17px;font-family:").data ++
  [aposChar] ++ ("PingFang SC").data ++ [aposChar, ','] ++
  [aposChar] ++ ("Hiragino Sans GB").data ++ [aposChar, ','] ++
  [aposChar] ++ ("Helvetica Neue").data ++ [aposChar] ++
  (",Arial,sans-serif;word-break:break-word;").data

/-- Transform stage 10: style links and code, wrap everything in the themed
`<div>` container. -/
def applyTheme (html : String) : String :=
  let linkStyled := scanReplace themeLinkMatch html.data
  let codeStyled := scanReplace preCodeMatch
    (scanReplace (litReplaceCIMatch ("<code>".data) codeStyleRepL) linkStyled)
  String.mk (("<div style=\"".data) ++ bodyStyleL ++ ("\">".data) ++ codeStyled ++ ("</div>".data))

/-- The full platform-compatibility transform applied by `cmdDraft`
(source lines 380-389): the ten stages in their fixed order. -/
def transformChain (html : String) : String :=
  applyTheme (styleParagraphs (convertHeadings (convertListsToParagraphs
    (removeEmptyListItems (flattenListItemParagraphs (stripLinks (replaceHr
      (replaceTables (stripTaskListInputs html)))))))))

/-- The ten transform stages as an ordered list. -/
def transformStages : List (String → String) :=
  [stripTaskListInputs, replaceTables, replaceHr, stripLinks,
   flattenListItemParagraphs, removeEmptyListItems, convertListsToParagraphs,
   convertHeadings, styleParagraphs, applyTheme]

/-! ### Title extraction (source lines 130-146) and resolution (lines 369-374) -/

/-- An apostrophe-or-double-quote test for `/^['"]|['"]$/g`. -/
def isQuoteChar (c : Char) : Bool := c == aposChar || c == '"'

/-- Model of `replace(/^['"]|['"]$/g, "")`: strip one leading and one trailing quote
character. -/
def stripQuotesJs (s : List Char) : List Char :=
  let a := match s with
    | c :: cs => if isQuoteChar c then cs else s
    | [] => s
  match a.getLast? with
  | some c => if isQuoteChar c then a.dropLast else a
  | none => a

/-- One attempt of `/^\s*title:\s*(.+)\s*$/m` at a line-start position:
skip whitespace (which, like JS `\s*`, may cross line breaks), require the
literal `title:`, and capture per the greedy/backtracking semantics of
`\s*(.+)\s*$`: the text from the first non-whitespace character to the end of
its line, or — when only whitespace follows — the last character that is not a
line break. -/
def tryTitleAt (t : List Char) : Option (List Char) :=
  let r := t.dropWhile isJsWs
  if isPrefixL ("title:".data) r then
    let afterColon := r.drop 6
    let cap := afterColon.dropWhile isJsWs
    if !cap.isEmpty then some (cap.takeWhile (fun c => c != '\n'))
    else
      match afterColon.reverse.dropWhile (fun c => c == '\n') with
      | [] => none
      | c :: _ => some [c]
  else none

/-- One attempt of `/^#\s+(.+)\s*$/m` at a line-start position. -/
def tryH1At (t : List Char) : Option (List Char) :=
  match t with
  | '#' :: rest =>
    if (rest.takeWhile isJsWs).isEmpty then none
    else
      let after := rest.dropWhile isJsWs
      if !after.isEmpty then some (after.takeWhile (fun c => c != '\n'))
      else
        match rest.reverse.dropWhile (fun c => c == '\n') with
        | [] => none
        | c :: r => if r.isEmpty then none else some [c]
  | _ => none

/-- Leftmost-match loop of a multiline-anchored regex: try `tryFn` at every
line-start position (index 0 and any position following a newline), in
order. -/
def lineStartScan (tryFn : List Char → Option (List Char)) :
    List Char → Bool → Option (List Char)
  | t, atStart =>
    match (if atStart then tryFn t else none) with
    | some cap => some cap
    | none =>
      match t with
      | [] => none
      | c :: cs => lineStartScan tryFn cs (c == '\n')

/-- The front-matter branch of `extractTitleFromMarkdown`: when the document
starts with `---` and a `\n---` terminator exists, look for a `title:` field
in the block and return it trimmed with surrounding quotes stripped. -/
def fmTitle (mdText : String) : Option String :=
  let s := mdText.data
  if isPrefixL ("---".data) s then
    match indexOfFromL ("\n---".data) 0 s with
    | some fmEnd =>
      match lineStartScan tryTitleAt ((s.take fmEnd).drop 3) true with
      | some cap => some (String.mk (stripQuotesJs (jsTrimL cap)))
      | none => none
    | none => none
  else none

/-- The first-H1 fallback branch of `extractTitleFromMarkdown`. -/
def h1Title (mdText : String) : Option String :=
  match lineStartScan tryH1At mdText.data true with
  | some cap => some (String.mk (jsTrimL cap))
  | none => none

/-- The source's `extractTitleFromMarkdown`: front-matter `title:` field first, else the
first ATX level-1 heading, else the empty string. -/
def extractTitleFromMarkdown (mdText : String) : String :=
  if mdText = "" then ""
  else
    match fmTitle mdText with
    | some t => t
    | none => (h1Title mdText).getD ""

/-- Title resolution performed by `cmdDraft` (source lines 369-374): the
trimmed explicit `--title` when non-empty, else the markdown-derived title;
`none` models `missing title` + `process.exit(2)`. -/
def resolveTitle (title : Option String) (mdText : String) : Option String :=
  let t := jsTrimS (title.getD "")
  let t2 := if t = "" then extractTitleFromMarkdown mdText else t
  if t2 = "" then none else some t2

/-! ### Digest extraction: `autoDigestFromMarkdown` (source lines 204-230) -/

/-- The backtick character. -/
def backtickChar : Char := Char.ofNat 96

/-- Matcher for ``/```[\s\S]*?```/g`` replaced by a space. -/
def fenceMatch (s : List Char) : Option (List Char × Nat) :=
  if isPrefixL ([backtickChar, backtickChar, backtickChar]) s then
    match splitAtFirstCI [[backtickChar, backtickChar, backtickChar]] 3 (s.drop 3) with
    | some (inner, _) => some ([' '], 3 + inner.length + 2)
    | none => none
  else none

/-- Matcher for inline code ``/`[^`]*`/g`` replaced by a space. -/
def inlineCodeMatch (s : List Char) : Option (List Char × Nat) :=
  match s with
  | c :: cs =>
    if c == backtickChar then
      let mid := cs.takeWhile (fun d => d != backtickChar)
      match cs.dropWhile (fun d => d != backtickChar) with
      | _ :: _ => some ([' '], mid.length + 1)
      | [] => none
    else none
  | [] => none

/-- Matcher for image syntax `/!\[[^\]]*]\([^)]+\)/g` replaced by a space. -/
def imageMdMatch (s : List Char) : Option (List Char × Nat) :=
  match s with
  | '!' :: '[' :: rest =>
    let alt := rest.takeWhile (fun c => c != ']')
    match rest.dropWhile (fun c => c != ']') with
    | ']' :: '(' :: rest2 =>
      let url := rest2.takeWhile (fun c => c != ')')
      if url.isEmpty then none
      else
        match rest2.dropWhile (fun c => c != ')') with
        | ')' :: _ => some ([' '], 2 + alt.length + 2 + url.length)
        | _ => none
    | _ => none
  | _ => none

/-- Matcher for link syntax `/\[([^\]]*)]\([^)]+\)/g` replaced by the link
text `$1`. -/
def linkMdMatch (s : List Char) : Option (List Char × Nat) :=
  match s with
  | '[' :: rest =>
    let txt := rest.takeWhile (fun c => c != ']')
    match rest.dropWhile (fun c => c != ']') with
    | ']' :: '(' :: rest2 =>
      let url := rest2.takeWhile (fun c => c != ')')
      if url.isEmpty then none
      else
        match rest2.dropWhile (fun c => c != ')') with
        | ')' :: _ => some (txt, 1 + txt.length + 2 + url.length)
        | _ => none
    | _ => none
  | _ => none

/-- The cleaning pipeline of `autoDigestFromMarkdown` before truncation:
trim, drop front-matter, drop code/images, keep link text, drop tags and
markdown punctuation, collapse whitespace. -/
def digestClean (mdText : String) : List Char :=
  let s0 := jsTrimL mdText.data
  let s1 :=
    if isPrefixL ("---".data) s0 then
      match indexOfFromL ("\n---".data) 3 s0 with
      | some j => s0.drop (j + 4)
      | none => s0
    else s0
  let s2 := scanReplace fenceMatch s1
  let s3 := scanReplace inlineCodeMatch s2
  let s4 := scanReplace imageMdMatch s3
  let s5 := scanReplace linkMdMatch s4
  let s6 := scanReplace (tagMatch [' ']) s5
  let s7 := s6.map (fun c => if ("#>*_|-".data).contains c then ' ' else c)
  jsTrimL (scanReplace wsRunMatch s7)

/-- The source's `autoDigestFromMarkdown md n`: empty for empty input or `n <= 0`; else
the cleaned text, truncated to `n` codepoints with an appended `"..."` when
it is longer than `n`. -/
def autoDigestFromMarkdown (mdText : String) (n : Int) : String :=
  if mdText = "" ∨ n ≤ 0 then ""
  else
    let r := digestClean mdText
    if (r.length : Int) ≤ n then String.mk r
    else String.mk (r.take n.toNat) ++ "..."

/-! ### Filenames (source lines 84-88, 100-109, 156-167) -/

/-- Node `path.basename` for POSIX paths: ignore trailing slashes, return the
last path segment (`"/"` for all-slash paths, `""` for the empty path). -/
def basenamePosix (p : String) : String :=
  if p = "" then ""
  else
    let r := p.data.reverse.dropWhile (fun c => c == '/')
    if r.isEmpty then "/" else String.mk ((r.takeWhile (fun c => c != '/')).reverse)

/-- The source's `guessFilename`: the basename of `p` unless it is empty, `"."` or `"/"`,
in which case the fallback name. -/
def guessFilename (p : String) (fallback : String) : String :=
  if p = "" then fallback
  else
    let base := basenamePosix p
    if base ≠ "" ∧ base ≠ "." ∧ base ≠ "/" then base else fallback

/-- Node `path.join` for POSIX paths: concatenation followed by segment
normalization (resolving `.`, `..` and duplicate separators). -/
def pathJoin (a b : String) : String :=
  let joined := if a = "" then b else if b = "" then a else a ++ "/" ++ b
  if joined = "" then "."
  else
    let isAbs := isPrefixL ("/".data) joined.data
    let hadTrail := joined.data.getLast? == some '/'
    let segs := (joined.splitOn "/").filter (fun seg => seg ≠ "" ∧ seg ≠ ".")
    let stack := segs.foldl (fun acc seg =>
      if seg = ".." then
        match acc with
        | [] => if isAbs then [] else [".."]
        | t :: rest => if t = ".." then seg :: t :: rest else rest
      else seg :: acc) []
    let core := String.intercalate "/" stack.reverse
    let core := if isAbs then "/" ++ core else core
    let core := if core = "" then (if isAbs then "/" else ".") else core
    if hadTrail ∧ core.data.getLast? ≠ some '/' then core ++ "/" else core

/-- Node `path.isAbsolute` for POSIX paths. -/
def isAbsolutePosix (p : String) : Bool := isPrefixL ("/".data) p.data

/-- The filename hint computed by `handleImageToken` (source lines 156-167):
always `"img.jpg"` for remote URLs; for local paths, `guessFilename` of the
path resolved against the document directory. -/
def bodyImageFilename (baseDir src : String) : String :=
  if isPrefixL ("http://".data) src.data || isPrefixL ("https://".data) src.data then
    "img.jpg"
  else
    guessFilename (if isAbsolutePosix src then src else pathJoin baseDir src) "img.jpg"

/-- The filename hint computed by `uploadThumbMediaId` (source lines 100-109):
`guessFilename` of the local file, or always `"cover.jpg"` for URLs. -/
def thumbFilename (file : Option String) : String :=
  match file with
  | some f => guessFilename f "cover.jpg"
  | none => "cover.jpg"

/-! ### The renderer's checkbox rule (source lines 41-44) -/

/-- The overridden `md.renderer.rules.checkbox_input`: a checkbox token is
rendered as the literal text `"[x] "` / `"[ ] "` (the `checked` argument
models `attrGet("checked") !== null`). -/
def checkboxInputRule (checked : Bool) : String :=
  if checked then "[x] " else "[ ] "

/-! ### Image rewriting (source lines 148-202) -/

/-- A markdown-it token: a type, an optional `src` attribute and child
tokens. -/
inductive Token where
  | mk : String → Option String → List Token → Token

/-- The token's type. -/
def Token.typ : Token → String
  | .mk t _ _ => t

/-- The token's `src` attribute (`attrGet("src")`). -/
def Token.src : Token → Option String
  | .mk _ s _ => s

/-- The token's children. -/
def Token.children : Token → List Token
  | .mk _ _ c => c

/-- The token update `attrSet("src", u)`. -/
def Token.setSrc : Token → String → Token
  | .mk t _ c, u => .mk t (some u) c

/-- Image bytes. -/
abbrev Bytes := List Nat

/-- The mutable state of `rewriteImageTokens`: the fingerprint cache
(`hash -> wxUrl`), the `uploaded` URL list, and — as instrumentation for
counting collaborator calls — the log of upload invocations with their
payload and returned URL. -/
structure RwState where
  cache : List (String × String)
  uploaded : List String
  uploads : List (Bytes × String)
deriving DecidableEq

/-- The initial rewrite state (`new Map()`, `[]`). -/
def initRwState : RwState := ⟨[], [], []⟩

/-- The source's `handleImageToken` (source lines 152-191).  The fetch collaborator models
the `downloadToBytes` / `fs.readFile` branch resolving the reference to raw
bytes; `upload` models `uploadContentImageUrl`; `hash` models the SHA-256 hex
fingerprint.  Errors carry the source's message strings. -/
def handleImageToken (fetch : String → Except String Bytes)
    (upload : String → Bytes → Except String String) (hash : Bytes → String)
    (baseDir : String) (st : RwState) (t : Token) : Except String (Token × RwState) :=
  let src := jsTrimS (t.src.getD "")
  if src = "" then .ok (t, st)
  else
    match fetch src with
    | .error e => .error ("image read failed for " ++ src ++ ": " ++ e)
    | .ok bytes =>
      if List.length bytes = 0 then .error ("image is empty for " ++ src)
      else
        let filename := bodyImageFilename baseDir src
        let hashHex := hash bytes
        match st.cache.lookup hashHex with
        | some wxUrl => .ok (t.setSrc wxUrl, st)
        | none =>
          match upload filename bytes with
          | .error e =>
            .error ("image upload failed for " ++ src ++ " (bytes=" ++
              toString (List.length bytes) ++ "): " ++ e)
          | .ok wxUrl =>
            .ok (t.setSrc wxUrl,
              { cache := (hashHex, wxUrl) :: st.cache,
                uploaded := st.uploaded ++ [wxUrl],
                uploads := st.uploads ++ [(bytes, wxUrl)] })

mutual

/-- One step of the recursive `walk` of `rewriteImageTokens` (source lines
193-198): handle the token when it is an image, then recurse into its
children, threading the state. -/
def walkToken (fetch : String → Except String Bytes)
    (upload : String → Bytes → Except String String) (hash : Bytes → String)
    (baseDir : String) (st : RwState) : Token → Except String (Token × RwState)
  | Token.mk ty src ch =>
    match (if ty = "image" then
        handleImageToken fetch upload hash baseDir st (Token.mk ty src ch)
      else .ok (Token.mk ty src ch, st)) with
    | .error e => .error e
    | .ok (t1, st1) =>
      match walkTokens fetch upload hash baseDir st1 ch with
      | .error e => .error e
      | .ok (ch1, st2) => .ok (Token.mk t1.typ t1.src ch1, st2)

/-- The `walk` of `rewriteImageTokens` over a token list. -/
def walkTokens (fetch : String → Except String Bytes)
    (upload : String → Bytes → Except String String) (hash : Bytes → String)
    (baseDir : String) (st : RwState) :
    List Token → Except String (List Token × RwState)
  | [] => .ok ([], st)
  | t :: rest =>
    match walkToken fetch upload hash baseDir st t with
    | .error e => .error e
    | .ok (t1, st1) =>
      match walkTokens fetch upload hash baseDir st1 rest with
      | .error e => .error e
      | .ok (rest1, st2) => .ok (t1 :: rest1, st2)

end

/-- The source's `rewriteImageTokens` (source lines 148-202): walk the whole token list
starting from an empty cache. -/
def rewriteImageTokens (fetch : String → Except String Bytes)
    (upload : String → Bytes → Except String String) (hash : Bytes → String)
    (baseDir : String) (tokens : List Token) : Except String (List Token × RwState) :=
  walkTokens fetch upload hash baseDir initRwState tokens

mutual

/-- The `src` attributes of the image tokens below one token, in the
traversal order of `walkToken`. -/
def imagesOfToken : Token → List (Option String)
  | Token.mk ty src ch => (if ty = "image" then [src] else []) ++ imagesOf ch

/-- The `src` attributes of the image tokens of a token list, in the
traversal order of `walkTokens`. -/
def imagesOf : List Token → List (Option String)
  | [] => []
  | t :: rest => imagesOfToken t ++ imagesOf rest

end

/-! ### `cmdDraft` (source lines 351-425), pure decision structure -/

/-- The draft article assembled by `cmdDraft`. -/
structure DraftArticle where
  title : String
  author : Option String
  digest : Option String
  content : String
  contentSourceUrl : Option String
  thumbMediaId : String
deriving DecidableEq

/-- The conversion pipeline of `cmdDraft` with its I/O collaborators
abstracted: parse result `tokens` and raw text `mdText` are given; image
rewriting runs first, then title resolution (failing with the source's
`missing title` message), then digest computation, then rendering (the
markdown-it renderer is the collaborator `render`) followed by the transform
chain, and only then the draft-creation call `draftAdd`. -/
def cmdDraftModel (fetch : String → Except String Bytes)
    (upload : String → Bytes → Except String String) (hash : Bytes → String)
    (baseDir : String) (render : List Token → String)
    (draftAdd : DraftArticle → Except String String)
    (title author digest : Option String) (digestAuto : Bool) (digestN : Int)
    (contentSourceUrl : Option String) (thumbMediaId : String)
    (mdText : String) (tokens : List Token) : Except String String :=
  match rewriteImageTokens fetch upload hash baseDir tokens with
  | .error e => .error e
  | .ok (tokens2, _) =>
    match resolveTitle title mdText with
    | none => .error "missing title: provide --title or add a markdown title"
    | some finalTitle =>
      let dg0 := jsTrimS (digest.getD "")
      let dg := if dg0 = "" ∧ digestAuto then autoDigestFromMarkdown mdText digestN else dg0
      let contentHTML := transformChain (render tokens2)
      draftAdd
        { title := finalTitle
          author := if jsTrimS (author.getD "") = "" then none else some (jsTrimS (author.getD ""))
          digest := if dg = "" then none else some dg
          content := contentHTML
          contentSourceUrl :=
            if jsTrimS (contentSourceUrl.getD "") = "" then none
            else some (jsTrimS (contentSourceUrl.getD ""))
          thumbMediaId := thumbMediaId }

/-! ### A concrete injective fingerprint for witnesses -/

/-- A concrete collision-free stand-in for the SHA-256 hex fingerprint used
in witnesses: unary-encode each byte (`n` letters `a`) terminated by `b`. -/
def unaryHash (bs : Bytes) : String :=
  String.mk (List.flatten ((bs : List Nat).map (fun n => List.replicate n 'a' ++ ['b'])))

/-- Decoder for `unaryHash`, used to prove it injective. -/
def unaryDecode : List Char → List Nat
  | [] => []
  | c :: cs =>
    if c = 'b' then 0 :: unaryDecode cs
    else
      match unaryDecode cs with
      | [] => []
      | n :: rest => (n + 1) :: rest

/-! ### The end-to-end example document (spec §8) -/

/-- The example Markdown document of the end-to-end property. -/
def mdDocC2 : String :=
  "# T\n\n![x](./a.png)\n\n- one\n- two\n\n| A | B |\n|---|---|\n| 1 | 2 |\n"

/-- The platform URL returned by the upload collaborator for `./a.png`. -/
def wxUrlC2 : String := "https://mmbiz.qpic.cn/img_a"

/-- Modelled from the spec: the Markdown Parser is the external `markdown-it`
collaborator (not part of `src/`); this is the token tree it produces for
`mdDocC2` — block tokens with inline children, the body image appearing as an
inline child token of type `image` carrying its `src` reference. -/
def tokensC2 : List Token :=
  [Token.mk "heading_open" none [],
   Token.mk "inline" none [Token.mk "text" none []],
   Token.mk "heading_close" none [],
   Token.mk "paragraph_open" none [],
   Token.mk "inline" none [Token.mk "image" (some "./a.png") []],
   Token.mk "paragraph_close" none [],
   Token.mk "bullet_list_open" none [],
   Token.mk "list_item_open" none [],
   Token.mk "inline" none [Token.mk "text" none []],
   Token.mk "list_item_close" none [],
   Token.mk "list_item_open" none [],
   Token.mk "inline" none [Token.mk "text" none []],
   Token.mk "list_item_close" none [],
   Token.mk "bullet_list_close" none [],
   Token.mk "table_open" none [],
   Token.mk "inline" none [Token.mk "text" none []],
   Token.mk "table_close" none []]

/-- The fetch collaborator for the example: `./a.png` resolves to these
bytes. -/
def fetchC2 : String → Except String Bytes := fun _ => .ok ([137, 80, 78, 71] : List Nat)

/-- The upload collaborator for the example: uploading returns `wxUrlC2`. -/
def uploadC2 : String → Bytes → Except String String := fun _ _ => .ok wxUrlC2

/-- Modelled from the spec: the HTML Renderer is the external `markdown-it`
serializer (not part of `src/`); this is its output for the token tree of
`mdDocC2` after image rewriting, parameterized by the rewritten image
reference `u` (standard markdown-it block serialization: `<h1>`, paragraph
with `<img>`, `<ul>`/`<li>` list, `<table>` with `<thead>`/`<tbody>`). -/
def renderedC2 (u : String) : String :=
  "<h1>T</h1>\n<p><img src=\"" ++ u ++ "\" alt=\"x\"></p>\n<ul>\n<li>one</li>\n<li>two</li>\n</ul>\n<table>\n<thead>\n<tr>\n<th>A</th>\n<th>B</th>\n</tr>\n</thead>\n<tbody>\n<tr>\n<td>1</td>\n<td>2</td>\n</tr>\n</tbody>\n</table>\n"

/-- The final HTML of the end-to-end example: the transform chain applied to
the rendered document. -/
def finalC2 : String := transformChain (renderedC2 wxUrlC2)


/-! ### Predicates for the image-rewriting proofs -/

/-- State evolution along the rewrite walk: cache lookups are preserved and
the upload logs only extend. -/
def stMono (st st' : RwState) : Prop :=
  (∀ hk u, st.cache.lookup hk = some u → st'.cache.lookup hk = some u) ∧
  (∃ tail, st'.uploads = st.uploads ++ tail) ∧
  (∃ tailU, st'.uploaded = st.uploaded ++ tailU)

/-- Invariant of the rewrite state relative to the fingerprint function:
every logged upload call is recorded in the cache under its payload's
fingerprint, no two upload calls share a fingerprint, `uploaded` is exactly
the URLs of the upload calls in order, and every cache entry stems from an
upload call. -/
def stInv (hash : Bytes → String) (st : RwState) : Prop :=
  (∀ p ∈ st.uploads, st.cache.lookup (hash p.1) = some p.2) ∧
  (st.uploads.map (fun p => hash p.1)).Nodup ∧
  st.uploaded = st.uploads.map (fun p => p.2) ∧
  (∀ hk u, st.cache.lookup hk = some u → ∃ b, (b, u) ∈ st.uploads ∧ hash b = hk)

/-- Relation between an image node's `src` before and after the walk,
relative to the final state: blank references are skipped unchanged; any
other reference was fetched and rewritten to the URL that the final cache
associates with the fingerprint of its bytes. -/
def imgRel (fetch : String → Except String Bytes) (hash : Bytes → String)
    (stF : RwState) (o o' : Option String) : Prop :=
  (jsTrimS (o.getD "") = "" ∧ o' = o) ∨
  (∃ b u, fetch (jsTrimS (o.getD "")) = .ok b ∧ b ≠ [] ∧
    stF.cache.lookup (hash b) = some u ∧ o' = some u)

/-- The three failure shapes of `handleImageToken` for the reference `src`:
read failures and empty payloads name the reference, upload failures name the
reference and the payload's byte length. -/
def imgFailMsg (fetch : String → Except String Bytes)
    (upload : String → Bytes → Except String String)
    (baseDir src m : String) : Prop :=
  (∃ e, fetch src = .error e ∧ m = "image read failed for " ++ src ++ ": " ++ e) ∨
  (fetch src = .ok [] ∧ m = "image is empty for " ++ src) ∨
  (∃ b e, fetch src = .ok b ∧ upload (bodyImageFilename baseDir src) b = .error e ∧
    m = "image upload failed for " ++ src ++ " (bytes=" ++
      toString (List.length b) ++ "): " ++ e)

/-- Post-condition of one step of the walk. -/
def walkTokenPost (fetch : String → Except String Bytes)
    (upload : String → Bytes → Except String String) (hash : Bytes → String)
    (baseDir : String) (st : RwState) (t : Token) :
    Except String (Token × RwState) → Prop
  | Except.error m =>
    ∃ o, o ∈ imagesOfToken t ∧ imgFailMsg fetch upload baseDir (jsTrimS (o.getD "")) m
  | Except.ok (t', st') =>
    stMono st st' ∧ (stInv hash st → stInv hash st') ∧
    List.Forall₂ (imgRel fetch hash st') (imagesOfToken t) (imagesOfToken t')

/-- Post-condition of the walk over a token list. -/
def walkTokensPost (fetch : String → Except String Bytes)
    (upload : String → Bytes → Except String String) (hash : Bytes → String)
    (baseDir : String) (st : RwState) (ts : List Token) :
    Except String (List Token × RwState) → Prop
  | Except.error m =>
    ∃ o, o ∈ imagesOf ts ∧ imgFailMsg fetch upload baseDir (jsTrimS (o.getD "")) m
  | Except.ok (ts', st') =>
    stMono st st' ∧ (stInv hash st → stInv hash st') ∧
    List.Forall₂ (imgRel fetch hash st') (imagesOf ts) (imagesOf ts')

/-- Certificate that `out` arises from `inp` by one replace scan: at each
position where the matcher does not fire the character is copied verbatim,
and each matched span (of `1 + k` characters) is replaced by the matcher's
replacement text.  Content outside matched spans is preserved unchanged. -/
inductive ScanDecomp (m : List Char → Option (List Char × Nat)) :
    List Char → List Char → Prop where
  | nil : ScanDecomp m [] []
  | copy {c : Char} {s out : List Char} : m (c :: s) = none →
      ScanDecomp m s out → ScanDecomp m (c :: s) (c :: out)
  | matched {c : Char} {s out rep : List Char} {k : Nat} :
      m (c :: s) = some (rep, k) →
      ScanDecomp m (s.drop k) out → ScanDecomp m (c :: s) (rep ++ out)

/-- Frame property of one scan of a transform stage: the output differs from
the input only inside matched spans (`ScanDecomp`), and the matcher fires
only where the stage's target pattern occurs (case-insensitively), so the
stage alters no content outside its targeted element kind. -/
def stageFrame (m : List Char → Option (List Char × Nat)) (pat : List Char)
    (inp out : List Char) : Prop :=
  ScanDecomp m inp out ∧ ∀ t, m t ≠ none → isPrefixCI pat t = true

/-! ## Theorems -/

/-- A scan whose matcher fires on no suffix of the input leaves the input
unchanged. -/
theorem scanReplaceF_eq_self (m : List Char → Option (List Char × Nat)) :
    ∀ (fuel : Nat) (s : List Char), (∀ t, t <:+ s → m t = none) →
      scanReplaceF m fuel s = s := by
  intro fuel
  induction fuel with
  | zero => intro s _; cases s <;> rfl
  | succ n ih =>
    intro s h
    cases s with
    | nil => rfl
    | cons c cs =>
      have hs : m (c :: cs) = none := h (c :: cs) (List.suffix_refl _)
      have ht : scanReplaceF m n cs = cs :=
        ih cs (fun t htt => h t (htt.trans (List.suffix_cons c cs)))
      simp only [scanReplaceF, hs, ht]

/-- Version of `scanReplaceF_eq_self` for `scanReplace`. -/
theorem scanReplace_eq_self (m : List Char → Option (List Char × Nat))
    (s : List Char) (h : ∀ t, t <:+ s → m t = none) : scanReplace m s = s :=
  scanReplaceF_eq_self m s.length s h

/-- If `pat` does not occur case-insensitively in `s`, it is not a
case-insensitive prefix of any suffix of `s`. -/
theorem isPrefixCI_false_of_not_containsCI (pat : List Char) :
    ∀ s t : List Char, containsCI pat s = false → t <:+ s →
      isPrefixCI pat t = false := by
  intro s
  induction s with
  | nil =>
    intro t h ht
    rw [List.suffix_nil.mp ht]
    simpa [containsCI] using h
  | cons c cs ih =>
    intro t h ht
    rw [containsCI, Bool.or_eq_false_iff] at h
    rcases List.suffix_cons_iff.mp ht with rfl | ht'
    · exact h.1
    · exact ih t h.2 ht'

/-- A scan whose matcher requires a case-insensitive prefix `pat` is the
identity on inputs not containing `pat`. -/
theorem scanReplace_eq_self_of_guard (m : List Char → Option (List Char × Nat))
    (pat : List Char) (hm : ∀ t, isPrefixCI pat t = false → m t = none)
    (s : List Char) (h : containsCI pat s = false) : scanReplace m s = s :=
  scanReplace_eq_self m s
    (fun t ht => hm t (isPrefixCI_false_of_not_containsCI pat s t h ht))

/-- The checkbox matcher fires only at a `<input` prefix. -/
theorem inputCheckboxMatch_guard (t : List Char)
    (h : isPrefixCI ("<input".data) t = false) : inputCheckboxMatch t = none := by
  simp [inputCheckboxMatch, h]

/-- The table matcher fires only at a `<table` prefix. -/
theorem tableMatch_guard (t : List Char)
    (h : isPrefixCI ("<table".data) t = false) : tableMatch t = none := by
  simp [tableMatch, h]

/-- The horizontal-rule matcher fires only at a `<hr` prefix. -/
theorem hrMatch_guard (t : List Char)
    (h : isPrefixCI ("<hr".data) t = false) : hrMatch t = none := by
  simp [hrMatch, h]

/-- The link-strip matcher fires only at a `<a` prefix. -/
theorem linkStripMatch_guard (t : List Char)
    (h : isPrefixCI ("<a".data) t = false) : linkStripMatch t = none := by
  simp [linkStripMatch, h]

/-- The list-item flattening matcher fires only at a `<li` prefix. -/
theorem liFlattenMatch_guard (t : List Char)
    (h : isPrefixCI ("<li".data) t = false) : liFlattenMatch t = none := by
  simp [liFlattenMatch, h]

/-- The empty-list-item matcher fires only at a `<li` prefix. -/
theorem liEmptyMatch_guard (t : List Char)
    (h : isPrefixCI ("<li".data) t = false) : liEmptyMatch t = none := by
  simp [liEmptyMatch, h]

/-- The `<ul>` matcher fires only at a `<ul` prefix. -/
theorem ulMatch_guard (t : List Char)
    (h : isPrefixCI ("<ul".data) t = false) : ulMatch t = none := by
  simp [ulMatch, h]

/-- The `<ol>` matcher fires only at a `<ol` prefix. -/
theorem olMatch_guard (t : List Char)
    (h : isPrefixCI ("<ol".data) t = false) : olMatch t = none := by
  simp [olMatch, h]

/-- The heading matcher fires only at its opening-pattern prefix. -/
theorem hMatch_guard (openPat closePat : List Char) (mk : List Char → List Char)
    (t : List Char) (h : isPrefixCI openPat t = false) :
    hMatch openPat closePat mk t = none := by
  simp [hMatch, h]

/-- The literal replacement matcher fires only at its pattern prefix. -/
theorem litReplaceCIMatch_guard (pat rep : List Char) (t : List Char)
    (h : isPrefixCI pat t = false) : litReplaceCIMatch pat rep t = none := by
  simp [litReplaceCIMatch, h]

/-- The theme link matcher fires only at a `<a` prefix. -/
theorem themeLinkMatch_guard (t : List Char)
    (h : isPrefixCI ("<a".data) t = false) : themeLinkMatch t = none := by
  simp [themeLinkMatch, h]

/-- The `<pre><code ...>` matcher fires only at its pattern prefix. -/
theorem preCodeMatch_guard (t : List Char)
    (h : isPrefixCI preCodePatL t = false) : preCodeMatch t = none := by
  simp [preCodeMatch, h]

/-- Every run of the fuelled replace scan is certified by `ScanDecomp`:
unmatched characters are copied verbatim and matches are spliced in. -/
theorem scanDecomp_scanReplaceF (m : List Char → Option (List Char × Nat)) :
    ∀ (fuel : Nat) (s : List Char), s.length ≤ fuel →
      ScanDecomp m s (scanReplaceF m fuel s) := by
  intro fuel
  induction fuel with
  | zero =>
    intro s hs
    have hnil : s = [] := List.length_eq_zero.mp (Nat.le_zero.mp hs)
    subst hnil
    exact ScanDecomp.nil
  | succ n ih =>
    intro s hs
    cases s with
    | nil => exact ScanDecomp.nil
    | cons c cs =>
      have hcs : cs.length ≤ n := by
        simp only [List.length_cons] at hs
        omega
      rw [scanReplaceF]
      cases hm : m (c :: cs) with
      | none => exact ScanDecomp.copy hm (ih cs hcs)
      | some pr =>
        obtain ⟨rep, k⟩ := pr
        exact ScanDecomp.matched hm
          (ih (cs.drop k) (by simp only [List.length_drop]; omega))

/-- Every `scanReplace` run is certified by `ScanDecomp`. -/
theorem scanDecomp_scanReplace (m : List Char → Option (List Char × Nat))
    (s : List Char) : ScanDecomp m s (scanReplace m s) :=
  scanDecomp_scanReplaceF m s.length s (le_refl _)

/-- A scan whose matcher requires its target pattern as a prefix satisfies
the stage frame property on every input. -/
theorem stageFrame_of_guard (m : List Char → Option (List Char × Nat))
    (pat : List Char) (hm : ∀ t, isPrefixCI pat t = false → m t = none)
    (inp : List Char) : stageFrame m pat inp (scanReplace m inp) := by
  refine ⟨scanDecomp_scanReplace m inp, ?_⟩
  intro t ht
  cases hpt : isPrefixCI pat t with
  | false => exact absurd (hm t hpt) ht
  | true => rfl

/-- Concatenation of `String.mk` pieces. -/
theorem stringMk_append (a b : List Char) :
    String.mk a ++ String.mk b = String.mk (a ++ b) := rfl

/-- C7: The platform-compatibility transform applied by `cmdDraft` equals the
composition of the ten pure string-to-string stages in the fixed total order
checkbox neutralization, table flattening, horizontal-rule removal, link
unwrapping, list-item paragraph flattening, empty-item removal,
list-to-paragraph conversion, heading conversion, paragraph/blockquote
styling, global theme wrap — with no stage skipped or reordered. -/
theorem transformChain_fixed_order (html : String) :
    transformChain html = transformStages.foldl (fun acc f => f acc) html := rfl

/-- C8 (amended): every stage except the global theme wrap is the identity on
HTML lacking the construct it targets — in particular table flattening is the
identity on HTML without `<table>` — and stages 1-9 alter no content outside
their targeted element kind: each of their scans copies every unmatched
character verbatim (`ScanDecomp`) and its matcher fires only at the target
pattern (`stageFrame`).  The theme wrap always wraps its input in the styled
`<div>` container — so it is never a no-op and adds the container outside its
targeted link/code elements — while its three link/code rewrites are
frame-respecting scans (and no-ops on input lacking links and code). -/
theorem transformStage_noop_of_absent (html : String) :
    (containsCIS "<input" html = false → stripTaskListInputs html = html) ∧
    (containsCIS "<table" html = false → replaceTables html = html) ∧
    (containsCIS "<hr" html = false → replaceHr html = html) ∧
    (containsCIS "<a" html = false → stripLinks html = html) ∧
    (containsCIS "<li" html = false → flattenListItemParagraphs html = html) ∧
    (containsCIS "<li" html = false → removeEmptyListItems html = html) ∧
    (containsCIS "<ul" html = false → containsCIS "<ol" html = false →
      convertListsToParagraphs html = html) ∧
    (containsCIS "<h1" html = false → containsCIS "<h2" html = false →
      containsCIS "<h3" html = false → convertHeadings html = html) ∧
    (containsCIS "<p>" html = false → containsCIS "<blockquote>" html = false →
      styleParagraphs html = html) ∧
    (containsCIS "<a" html = false → containsCIS "<code>" html = false →
      containsCI preCodePatL html.data = false →
      applyTheme html = "<div style=\"" ++ String.mk bodyStyleL ++ "\">" ++ html ++ "</div>") ∧
    stageFrame inputCheckboxMatch ("<input".data) html.data
      (stripTaskListInputs html).data ∧
    stageFrame tableMatch ("<table".data) html.data (replaceTables html).data ∧
    stageFrame hrMatch ("<hr".data) html.data (replaceHr html).data ∧
    stageFrame linkStripMatch ("<a".data) html.data (stripLinks html).data ∧
    stageFrame liFlattenMatch ("<li".data) html.data
      (flattenListItemParagraphs html).data ∧
    stageFrame liEmptyMatch ("<li".data) html.data
      (removeEmptyListItems html).data ∧
    (stageFrame ulMatch ("<ul".data) html.data (scanReplace ulMatch html.data) ∧
      stageFrame olMatch ("<ol".data) (scanReplace ulMatch html.data)
        (convertListsToParagraphs html).data) ∧
    (stageFrame (hMatch ("<h1".data) ("</h1>".data) (fun _ => [])) ("<h1".data)
        html.data
        (scanReplace (hMatch ("<h1".data) ("</h1>".data) (fun _ => [])) html.data) ∧
      stageFrame (hMatch ("<h2".data) ("</h2>".data)
          (fun b => h2PrefixL ++ b ++ ("</span></h2>".data))) ("<h2".data)
        (scanReplace (hMatch ("<h1".data) ("</h1>".data) (fun _ => [])) html.data)
        (scanReplace (hMatch ("<h2".data) ("</h2>".data)
            (fun b => h2PrefixL ++ b ++ ("</span></h2>".data)))
          (scanReplace (hMatch ("<h1".data) ("</h1>".data) (fun _ => [])) html.data)) ∧
      stageFrame (hMatch ("<h3".data) ("</h3>".data)
          (fun b => h3PrefixL ++ b ++ ("</span></h3>".data))) ("<h3".data)
        (scanReplace (hMatch ("<h2".data) ("</h2>".data)
            (fun b => h2PrefixL ++ b ++ ("</span></h2>".data)))
          (scanReplace (hMatch ("<h1".data) ("</h1>".data) (fun _ => [])) html.data))
        (convertHeadings html).data) ∧
    (stageFrame (litReplaceCIMatch ("<p>".data) pStyleL) ("<p>".data) html.data
        (scanReplace (litReplaceCIMatch ("<p>".data) pStyleL) html.data) ∧
      stageFrame (litReplaceCIMatch ("<blockquote>".data) bqStyleL)
        ("<blockquote>".data)
        (scanReplace (litReplaceCIMatch ("<p>".data) pStyleL) html.data)
        (styleParagraphs html).data) ∧
    (stageFrame themeLinkMatch ("<a".data) html.data
        (scanReplace themeLinkMatch html.data) ∧
      stageFrame (litReplaceCIMatch ("<code>".data) codeStyleRepL) ("<code>".data)
        (scanReplace themeLinkMatch html.data)
        (scanReplace (litReplaceCIMatch ("<code>".data) codeStyleRepL)
          (scanReplace themeLinkMatch html.data)) ∧
      stageFrame preCodeMatch preCodePatL
        (scanReplace (litReplaceCIMatch ("<code>".data) codeStyleRepL)
          (scanReplace themeLinkMatch html.data))
        (scanReplace preCodeMatch
          (scanReplace (litReplaceCIMatch ("<code>".data) codeStyleRepL)
            (scanReplace themeLinkMatch html.data))) ∧
      (applyTheme html).data =
        ("<div style=\"".data) ++ bodyStyleL ++ ("\">".data) ++
          scanReplace preCodeMatch
            (scanReplace (litReplaceCIMatch ("<code>".data) codeStyleRepL)
              (scanReplace themeLinkMatch html.data)) ++ ("</div>".data)) := by
  refine ⟨?_, ?_, ?_, ?_, ?_, ?_, ?_, ?_, ?_, ?_, ?_, ?_, ?_, ?_, ?_, ?_, ?_,
    ⟨?_, ?_, ?_⟩, ⟨?_, ?_⟩, ⟨?_, ?_, ?_, ?_⟩⟩
  · intro h
    unfold stripTaskListInputs
    rw [scanReplace_eq_self_of_guard _ _ inputCheckboxMatch_guard _ h]
  · intro h
    unfold replaceTables
    rw [scanReplace_eq_self_of_guard _ _ tableMatch_guard _ h]
  · intro h
    unfold replaceHr
    rw [scanReplace_eq_self_of_guard _ _ hrMatch_guard _ h]
  · intro h
    unfold stripLinks
    rw [scanReplace_eq_self_of_guard _ _ linkStripMatch_guard _ h]
  · intro h
    unfold flattenListItemParagraphs
    rw [scanReplace_eq_self_of_guard _ _ liFlattenMatch_guard _ h]
  · intro h
    unfold removeEmptyListItems
    rw [scanReplace_eq_self_of_guard _ _ liEmptyMatch_guard _ h]
  · intro hu ho
    unfold convertListsToParagraphs
    rw [scanReplace_eq_self_of_guard _ _ ulMatch_guard _ hu,
      scanReplace_eq_self_of_guard _ _ olMatch_guard _ ho]
  · intro h1 h2 h3
    unfold convertHeadings
    rw [scanReplace_eq_self_of_guard _ _ (hMatch_guard _ ("</h1>".data) _) _ h1,
      scanReplace_eq_self_of_guard _ _ (hMatch_guard _ ("</h2>".data) _) _ h2,
      scanReplace_eq_self_of_guard _ _ (hMatch_guard _ ("</h3>".data) _) _ h3]
  · intro hp hb
    unfold styleParagraphs
    rw [scanReplace_eq_self_of_guard _ _ (litReplaceCIMatch_guard _ pStyleL) _ hp,
      scanReplace_eq_self_of_guard _ _ (litReplaceCIMatch_guard _ bqStyleL) _ hb]
  · intro ha hc hpc
    have e1 : scanReplace themeLinkMatch html.data = html.data :=
      scanReplace_eq_self_of_guard _ _ themeLinkMatch_guard _ ha
    have e2 : scanReplace (litReplaceCIMatch ("<code>".data) codeStyleRepL) html.data = html.data :=
      scanReplace_eq_self_of_guard _ _ (litReplaceCIMatch_guard _ codeStyleRepL) _ hc
    have e3 : scanReplace preCodeMatch html.data = html.data :=
      scanReplace_eq_self_of_guard _ _ preCodeMatch_guard _ hpc
    unfold applyTheme
    simp only [e1, e2, e3]
    refine String.ext ?_
    simp [String.data_append]
  · exact stageFrame_of_guard _ _ inputCheckboxMatch_guard html.data
  · exact stageFrame_of_guard _ _ tableMatch_guard html.data
  · exact stageFrame_of_guard _ _ hrMatch_guard html.data
  · exact stageFrame_of_guard _ _ linkStripMatch_guard html.data
  · exact stageFrame_of_guard _ _ liFlattenMatch_guard html.data
  · exact stageFrame_of_guard _ _ liEmptyMatch_guard html.data
  · exact ⟨stageFrame_of_guard _ _ ulMatch_guard html.data,
      stageFrame_of_guard _ _ olMatch_guard (scanReplace ulMatch html.data)⟩
  · exact stageFrame_of_guard _ _ (hMatch_guard _ ("</h1>".data) _) html.data
  · exact stageFrame_of_guard _ _ (hMatch_guard _ ("</h2>".data) _) _
  · exact stageFrame_of_guard _ _ (hMatch_guard _ ("</h3>".data) _) _
  · exact stageFrame_of_guard _ _ (litReplaceCIMatch_guard _ pStyleL) html.data
  · exact stageFrame_of_guard _ _ (litReplaceCIMatch_guard _ bqStyleL) _
  · exact stageFrame_of_guard _ _ themeLinkMatch_guard html.data
  · exact stageFrame_of_guard _ _ (litReplaceCIMatch_guard _ codeStyleRepL) _
  · exact stageFrame_of_guard _ _ preCodeMatch_guard _
  · rfl

/-- C8 (counterexample): the claim that every stage is a no-op on input
lacking its construct fails for the global theme wrap, which always wraps the
body in a styled container. -/
theorem applyTheme_not_noop_counterexample : applyTheme "x" ≠ "x" := by decide

/-- C8 (witness): instantiation of `transformStage_noop_of_absent` at a
concrete table-free and list-free input. -/
theorem transformStage_noop_witness :
    replaceTables "<p>hi</p>" = "<p>hi</p>" ∧
    convertListsToParagraphs "<p>hi</p>" = "<p>hi</p>" :=
  ⟨(transformStage_noop_of_absent "<p>hi</p>").2.1 (by decide),
   (transformStage_noop_of_absent "<p>hi</p>").2.2.2.2.2.2.1 (by decide) (by decide)⟩

/-- C3 (counterexample): the HTML Renderer does not serialize checkbox nodes
as `<input>` form controls — its overridden `checkbox_input` rule already
emits the literal text `"[x] "` / `"[ ] "`, for both checkbox states. -/
theorem renderer_checkbox_not_input_counterexample :
    containsCIS "<input" (checkboxInputRule true) = false ∧
    containsCIS "<input" (checkboxInputRule false) = false ∧
    checkboxInputRule true = "[x] " ∧ checkboxInputRule false = "[ ] " := by
  refine ⟨by decide, by decide, rfl, rfl⟩

/-- C3 (amended): the Renderer's overridden checkbox rule itself emits the
literal text `"[x] "` (checked) / `"[ ] "` (unchecked) instead of an
`<input>` element, and stage 1 of the Transform Chain additionally replaces
any checkbox `<input>` element present in the rendered HTML by the same
literal text. -/
theorem renderer_checkbox_literal_text :
    checkboxInputRule true = "[x] " ∧ checkboxInputRule false = "[ ] " ∧
    stripTaskListInputs
        "<input class=\"task-list-item-checkbox\" checked=\"\" disabled=\"\" type=\"checkbox\">" =
      "[x] " ∧
    stripTaskListInputs
        "<input class=\"task-list-item-checkbox\" disabled=\"\" type=\"checkbox\">" =
      "[ ] " := by
  refine ⟨rfl, rfl, by decide, by decide⟩

set_option maxRecDepth 100000

/-- C2: converting the example document — image rewriting replaces the single
`./a.png` reference by the platform URL returned by the upload collaborator
(with exactly that one content upload), and the transform chain yields final
HTML with no `<h1>`, no `<table>`, no `<ul>`/`<li>` elements, paragraphs
whose text is `• one` and `• two`, a paragraph containing `1 | 2`, and an
`<img>` whose `src` equals the platform URL. -/
theorem draftConversion_endToEnd_example :
    (rewriteImageTokens fetchC2 uploadC2 unaryHash "." tokensC2).map
        (fun p => (imagesOf p.1, p.2.uploaded)) = .ok ([some wxUrlC2], [wxUrlC2]) ∧
    containsCIS "<h1" finalC2 = false ∧
    containsCIS "<table" finalC2 = false ∧
    containsCIS "<ul" finalC2 = false ∧
    containsCIS "<li" finalC2 = false ∧
    containsLS (">• one</p>") finalC2 = true ∧
    containsLS (">• two</p>") finalC2 = true ∧
    containsLS "1 | 2" finalC2 = true ∧
    containsLS ("<img src=\"" ++ wxUrlC2 ++ "\"") finalC2 = true := by
  refine ⟨rfl, by decide, by decide, by decide, by decide, by decide, by decide,
    by decide, by decide⟩

/-- Reflexivity of `stMono`. -/
theorem stMono_refl (st : RwState) : stMono st st :=
  ⟨fun _ _ h => h, ⟨[], by simp⟩, ⟨[], by simp⟩⟩

/-- Transitivity of `stMono`. -/
theorem stMono_trans {a b c : RwState} (h1 : stMono a b) (h2 : stMono b c) :
    stMono a c := by
  obtain ⟨l1, ⟨t1, ht1⟩, ⟨v1, hv1⟩⟩ := h1
  obtain ⟨l2, ⟨t2, ht2⟩, ⟨v2, hv2⟩⟩ := h2
  refine ⟨fun hk u h => l2 hk u (l1 hk u h), ⟨t1 ++ t2, ?_⟩, ⟨v1 ++ v2, ?_⟩⟩
  · rw [ht2, ht1, List.append_assoc]
  · rw [hv2, hv1, List.append_assoc]

/-- Monotonicity of `imgRel` along `stMono`. -/
theorem imgRel_mono {fetch : String → Except String Bytes} {hash : Bytes → String}
    {stA stB : RwState} {o o' : Option String} (hm : stMono stA stB)
    (hr : imgRel fetch hash stA o o') : imgRel fetch hash stB o o' := by
  rcases hr with h1 | ⟨b, u, hf, hb, hl, ho⟩
  · exact Or.inl h1
  · exact Or.inr ⟨b, u, hf, hb, hm.1 _ _ hl, ho⟩

/-- The update `setSrc` preserves a token's type and children and replaces its
reference. -/
theorem setSrc_fields (t : Token) (u : String) :
    (t.setSrc u).typ = t.typ ∧ (t.setSrc u).children = t.children ∧
      (t.setSrc u).src = some u := by
  cases t; exact ⟨rfl, rfl, rfl⟩

/-- A failing `handleImageToken` call fails on a non-blank reference with one
of the three failure message shapes for that reference. -/
theorem handleImageToken_error (fetch : String → Except String Bytes)
    (upload : String → Bytes → Except String String) (hash : Bytes → String)
    (baseDir : String) (st : RwState) (t : Token) (m : String)
    (hok : handleImageToken fetch upload hash baseDir st t = .error m) :
    jsTrimS ((t.src).getD "") ≠ "" ∧
      imgFailMsg fetch upload baseDir (jsTrimS ((t.src).getD "")) m := by
  by_cases h1 : jsTrimS ((t.src).getD "") = ""
  · simp [handleImageToken, h1] at hok
  · refine ⟨h1, ?_⟩
    simp only [handleImageToken, if_neg h1] at hok
    cases hf : fetch (jsTrimS ((t.src).getD "")) with
    | error e =>
      rw [hf] at hok
      dsimp only at hok
      simp only [Except.error.injEq] at hok
      exact Or.inl ⟨e, hf, hok.symm⟩
    | ok bytes =>
      rw [hf] at hok
      dsimp only at hok
      by_cases hb : List.length bytes = 0
      · rw [if_pos hb] at hok
        simp only [Except.error.injEq] at hok
        have hbe : bytes = [] := List.length_eq_zero.mp hb
        subst hbe
        exact Or.inr (Or.inl ⟨hf, hok.symm⟩)
      · rw [if_neg hb] at hok
        cases hc : st.cache.lookup (hash bytes) with
        | some wxUrl => rw [hc] at hok; simp at hok
        | none =>
          rw [hc] at hok
          dsimp only at hok
          cases hu : upload (bodyImageFilename baseDir (jsTrimS ((t.src).getD ""))) bytes with
          | error e =>
            rw [hu] at hok
            dsimp only at hok
            simp only [Except.error.injEq] at hok
            exact Or.inr (Or.inr ⟨bytes, e, hf, hu, hok.symm⟩)
          | ok wxUrl => rw [hu] at hok; simp at hok

/-- A successful `handleImageToken` call preserves the token's type and
children, evolves the state monotonically, preserves the state invariant, and
relates the old and new reference by `imgRel` at the new state. -/
theorem handleImageToken_ok (fetch : String → Except String Bytes)
    (upload : String → Bytes → Except String String) (hash : Bytes → String)
    (baseDir : String) (st : RwState) (t : Token) (t1 : Token) (st1 : RwState)
    (hok : handleImageToken fetch upload hash baseDir st t = .ok (t1, st1)) :
    t1.typ = t.typ ∧ t1.children = t.children ∧ stMono st st1 ∧
      (stInv hash st → stInv hash st1) ∧ imgRel fetch hash st1 t.src t1.src := by
  by_cases h1 : jsTrimS ((t.src).getD "") = ""
  · simp only [handleImageToken, if_pos h1] at hok
    obtain ⟨rfl, rfl⟩ : t = t1 ∧ st = st1 := by
      constructor <;> [exact congrArg Prod.fst (Except.ok.inj hok);
        exact congrArg Prod.snd (Except.ok.inj hok)]
    exact ⟨rfl, rfl, stMono_refl st, id, Or.inl ⟨h1, rfl⟩⟩
  · simp only [handleImageToken, if_neg h1] at hok
    cases hf : fetch (jsTrimS ((t.src).getD "")) with
    | error e => rw [hf] at hok; simp at hok
    | ok bytes =>
      rw [hf] at hok
      dsimp only at hok
      by_cases hb : List.length bytes = 0
      · rw [if_pos hb] at hok; simp at hok
      · rw [if_neg hb] at hok
        have hbne : bytes ≠ [] := fun hh => hb (by simp [hh])
        cases hc : st.cache.lookup (hash bytes) with
        | some wxUrl =>
          rw [hc] at hok
          dsimp only at hok
          obtain ⟨rfl, rfl⟩ : t.setSrc wxUrl = t1 ∧ st = st1 := by
            constructor <;> [exact congrArg Prod.fst (Except.ok.inj hok);
              exact congrArg Prod.snd (Except.ok.inj hok)]
          obtain ⟨hty, hch, hsrc⟩ := setSrc_fields t wxUrl
          exact ⟨hty, hch, stMono_refl st, id,
            Or.inr ⟨bytes, wxUrl, hf, hbne, hc, hsrc⟩⟩
        | none =>
          rw [hc] at hok
          dsimp only at hok
          cases hu : upload (bodyImageFilename baseDir (jsTrimS ((t.src).getD ""))) bytes with
          | error e => rw [hu] at hok; simp at hok
          | ok wxUrl =>
            rw [hu] at hok
            dsimp only at hok
            obtain ⟨rfl, rfl⟩ :
                t.setSrc wxUrl = t1 ∧
                  ({ cache := (hash bytes, wxUrl) :: st.cache,
                     uploaded := st.uploaded ++ [wxUrl],
                     uploads := st.uploads ++ [(bytes, wxUrl)] } : RwState) = st1 := by
              constructor <;> [exact congrArg Prod.fst (Except.ok.inj hok);
                exact congrArg Prod.snd (Except.ok.inj hok)]
            obtain ⟨hty, hch, hsrc⟩ := setSrc_fields t wxUrl
            have hlookupNew :
                List.lookup (hash bytes) ((hash bytes, wxUrl) :: st.cache) = some wxUrl := by
              simp [List.lookup]
            have hmono : stMono st
                { cache := (hash bytes, wxUrl) :: st.cache,
                  uploaded := st.uploaded ++ [wxUrl],
                  uploads := st.uploads ++ [(bytes, wxUrl)] } := by
              refine ⟨fun hk u hl => ?_, ⟨[(bytes, wxUrl)], rfl⟩, ⟨[wxUrl], rfl⟩⟩
              have hne : hk ≠ hash bytes := fun hh => by
                rw [hh, hc] at hl; exact Option.noConfusion hl
              simpa [List.lookup, beq_eq_false_iff_ne.mpr hne] using hl
            refine ⟨hty, hch, hmono, fun hinv => ?_,
              Or.inr ⟨bytes, wxUrl, hf, hbne, hlookupNew, hsrc⟩⟩
            obtain ⟨i1, i2, i3, i4⟩ := hinv
            have hnotmem : hash bytes ∉ st.uploads.map (fun p => hash p.1) := by
              intro hmem
              obtain ⟨p, hp, hph⟩ := List.mem_map.mp hmem
              have := i1 p hp
              rw [hph, hc] at this
              exact Option.noConfusion this
            refine ⟨?_, ?_, ?_, ?_⟩
            · intro p hp
              rcases List.mem_append.mp hp with hp' | hp'
              · have hl := i1 p hp'
                have hne : hash p.1 ≠ hash bytes := fun hh => hnotmem (hh ▸ List.mem_map_of_mem _ hp')
                simpa [List.lookup, beq_eq_false_iff_ne.mpr hne] using hl
              · have : p = (bytes, wxUrl) := by simpa using hp'
                subst this
                exact hlookupNew
            · rw [List.map_append, List.map_cons, List.map_nil, List.nodup_append]
              refine ⟨i2, List.nodup_singleton _, ?_⟩
              intro x hx1 hx2
              have hx : x = hash bytes := by simpa using hx2
              subst hx
              exact hnotmem hx1
            · simp [i3]
            · intro hk u hl
              by_cases hkh : hk = hash bytes
              · subst hkh
                rw [hlookupNew] at hl
                obtain rfl : wxUrl = u := Option.some.inj hl
                exact ⟨bytes, by simp, rfl⟩
              · have hl' : List.lookup hk st.cache = some u := by
                  simpa [List.lookup, beq_eq_false_iff_ne.mpr hkh] using hl
                obtain ⟨b', hb', hbh⟩ := i4 hk u hl'
                exact ⟨b', List.mem_append.mpr (Or.inl hb'), hbh⟩

mutual

/-- Every walk step satisfies its post-condition: failures carry a failure
message naming some image reference of the subtree, successes evolve the
state monotonically, preserve the invariant, and rewrite the subtree's image
references according to `imgRel` at the resulting state. -/
theorem walkToken_post (fetch : String → Except String Bytes)
    (upload : String → Bytes → Except String String) (hash : Bytes → String)
    (baseDir : String) :
    ∀ (st : RwState) (t : Token),
      walkTokenPost fetch upload hash baseDir st t
        (walkToken fetch upload hash baseDir st t)
  | st, Token.mk ty src ch => by
    simp only [walkToken]
    by_cases him : ty = "image"
    · rw [if_pos him]
      cases hh : handleImageToken fetch upload hash baseDir st (Token.mk ty src ch) with
      | error m =>
        dsimp only
        simp only [walkTokenPost]
        obtain ⟨hne, hmsg⟩ :=
          handleImageToken_error fetch upload hash baseDir st (Token.mk ty src ch) m hh
        simp only [Token.src] at hmsg
        refine ⟨src, ?_, hmsg⟩
        simp only [imagesOfToken, if_pos him]
        exact List.mem_append.mpr (Or.inl (List.mem_singleton.mpr rfl))
      | ok pair =>
        obtain ⟨t1, st1⟩ := pair
        dsimp only
        obtain ⟨hty, hch, hm1, hi1, hr1⟩ :=
          handleImageToken_ok fetch upload hash baseDir st (Token.mk ty src ch) t1 st1 hh
        cases t1 with
        | mk ty1 src1 chx =>
        simp only [Token.typ] at hty
        simp only [Token.src] at hr1
        subst hty
        cases hw : walkTokens fetch upload hash baseDir st1 ch with
        | error m =>
          dsimp only
          simp only [walkTokenPost]
          have post := walkTokens_post fetch upload hash baseDir st1 ch
          rw [hw] at post
          simp only [walkTokensPost] at post
          obtain ⟨o, ho, hmsg⟩ := post
          refine ⟨o, ?_, hmsg⟩
          simp only [imagesOfToken]
          exact List.mem_append.mpr (Or.inr ho)
        | ok pair2 =>
          obtain ⟨ch1, st2⟩ := pair2
          dsimp only
          simp only [walkTokenPost]
          have post := walkTokens_post fetch upload hash baseDir st1 ch
          rw [hw] at post
          simp only [walkTokensPost] at post
          obtain ⟨hm2, hi2, hr2⟩ := post
          refine ⟨stMono_trans hm1 hm2, fun hv => hi2 (hi1 hv), ?_⟩
          simp only [imagesOfToken, Token.typ, Token.src]
          apply List.rel_append
          · rw [if_pos him, if_pos him]
            exact List.Forall₂.cons (imgRel_mono hm2 hr1) List.Forall₂.nil
          · exact hr2
    · rw [if_neg him]
      dsimp only
      cases hw : walkTokens fetch upload hash baseDir st ch with
      | error m =>
        dsimp only
        simp only [walkTokenPost]
        have post := walkTokens_post fetch upload hash baseDir st ch
        rw [hw] at post
        simp only [walkTokensPost] at post
        obtain ⟨o, ho, hmsg⟩ := post
        refine ⟨o, ?_, hmsg⟩
        simp only [imagesOfToken]
        exact List.mem_append.mpr (Or.inr ho)
      | ok pair2 =>
        obtain ⟨ch1, st2⟩ := pair2
        dsimp only
        simp only [walkTokenPost]
        have post := walkTokens_post fetch upload hash baseDir st ch
        rw [hw] at post
        simp only [walkTokensPost] at post
        obtain ⟨hm2, hi2, hr2⟩ := post
        refine ⟨hm2, hi2, ?_⟩
        simp only [imagesOfToken, Token.typ, Token.src, if_neg him, List.nil_append]
        exact hr2

/-- The walk over a token list satisfies its post-condition. -/
theorem walkTokens_post (fetch : String → Except String Bytes)
    (upload : String → Bytes → Except String String) (hash : Bytes → String)
    (baseDir : String) :
    ∀ (st : RwState) (ts : List Token),
      walkTokensPost fetch upload hash baseDir st ts
        (walkTokens fetch upload hash baseDir st ts)
  | st, [] => by
    simp only [walkTokens, walkTokensPost, imagesOf]
    exact ⟨stMono_refl st, id, List.Forall₂.nil⟩
  | st, t :: rest => by
    simp only [walkTokens]
    cases hw : walkToken fetch upload hash baseDir st t with
    | error m =>
      dsimp only
      simp only [walkTokensPost]
      have post := walkToken_post fetch upload hash baseDir st t
      rw [hw] at post
      simp only [walkTokenPost] at post
      obtain ⟨o, ho, hmsg⟩ := post
      refine ⟨o, ?_, hmsg⟩
      simp only [imagesOf]
      exact List.mem_append.mpr (Or.inl ho)
    | ok pair =>
      obtain ⟨t1, st1⟩ := pair
      dsimp only
      have post1 := walkToken_post fetch upload hash baseDir st t
      rw [hw] at post1
      simp only [walkTokenPost] at post1
      obtain ⟨hm1, hi1, hr1⟩ := post1
      cases hw2 : walkTokens fetch upload hash baseDir st1 rest with
      | error m =>
        dsimp only
        simp only [walkTokensPost]
        have post2 := walkTokens_post fetch upload hash baseDir st1 rest
        rw [hw2] at post2
        simp only [walkTokensPost] at post2
        obtain ⟨o, ho, hmsg⟩ := post2
        refine ⟨o, ?_, hmsg⟩
        simp only [imagesOf]
        exact List.mem_append.mpr (Or.inr ho)
      | ok pair2 =>
        obtain ⟨rest1, st2⟩ := pair2
        dsimp only
        simp only [walkTokensPost]
        have post2 := walkTokens_post fetch upload hash baseDir st1 rest
        rw [hw2] at post2
        simp only [walkTokensPost] at post2
        obtain ⟨hm2, hi2, hr2⟩ := post2
        refine ⟨stMono_trans hm1 hm2, fun hv => hi2 (hi1 hv), ?_⟩
        simp only [imagesOf]
        exact List.rel_append
          (hr1.imp (fun a b hr => imgRel_mono hm2 hr)) hr2

end

/-- The initial rewrite state satisfies the invariant. -/
theorem stInv_init (hash : Bytes → String) : stInv hash initRwState :=
  ⟨fun p hp => by simp [initRwState] at hp,
   by simp [initRwState],
   rfl,
   fun hk u hl => by simp [initRwState, List.lookup] at hl⟩

/-- With pairwise-distinct fingerprints, the upload calls whose payload is
`b` are exactly the one recorded call `(b, u)`. -/
theorem uploads_filter_eq (hash : Bytes → String) :
    ∀ (l : List (Bytes × String)) (b : Bytes) (u : String),
      (l.map (fun p => hash p.1)).Nodup → (b, u) ∈ l →
      l.filter (fun p => p.1 == b) = [(b, u)] := by
  intro l
  induction l with
  | nil => intro b u _ hm; simp at hm
  | cons p l ih =>
    intro b u hnd hm
    simp only [List.map_cons, List.nodup_cons] at hnd
    obtain ⟨hnotin, hnd'⟩ := hnd
    rcases List.mem_cons.mp hm with heq | hm'
    · rw [← heq] at hnotin ⊢
      have hfl : l.filter (fun p => p.1 == b) = [] := by
        rw [List.filter_eq_nil_iff]
        intro q hq hqb
        apply hnotin
        have hqb' : q.1 = b := by simpa using hqb
        have : hash q.1 ∈ l.map (fun p => hash p.1) := List.mem_map_of_mem _ hq
        simpa [hqb'] using this
      simp [List.filter_cons, hfl]
    · have hpb : p.1 ≠ b := by
        intro hpb
        apply hnotin
        rw [hpb]
        have : hash b ∈ l.map (fun p => hash p.1) := by
          have := List.mem_map_of_mem (fun p => hash p.1) hm'
          simpa using this
        exact this
      have : (p.1 == b) = false := beq_eq_false_iff_ne.mpr hpb
      simp [List.filter_cons, this]
      exact ih b u hnd' hm'

/-- C10: for every image node whose `src` attribute is absent, empty or
whitespace-only, image rewriting skips the node entirely: for arbitrary
fetch/upload collaborators `handleImageToken` succeeds with the token and the
state unchanged — no fetch, no upload, no error, and the reference field is
untouched. -/
theorem emptySrc_skipped (fetch : String → Except String Bytes)
    (upload : String → Bytes → Except String String) (hash : Bytes → String)
    (baseDir : String) (st : RwState) (t : Token)
    (h : t.src = none ∨ ∃ s, t.src = some s ∧ jsTrimS s = "") :
    handleImageToken fetch upload hash baseDir st t = .ok (t, st) := by
  have hsrc : jsTrimS ((t.src).getD "") = "" := by
    rcases h with h | ⟨s, hs, hts⟩
    · rw [h]; rfl
    · rw [hs]; exact hts
  simp [handleImageToken, hsrc]

/-- C10 (witness): a whitespace-only reference is skipped even when both
collaborators would fail. -/
theorem emptySrc_skipped_witness :
    handleImageToken (fun _ => .error "boom") (fun _ _ => .error "boom") unaryHash "."
      initRwState (Token.mk "image" (some "   ") []) =
      .ok (Token.mk "image" (some "   ") [], initRwState) :=
  emptySrc_skipped _ _ _ _ _ _ (Or.inr ⟨"   ", rfl, by decide⟩)

/-- C9: if fetching or uploading any image fails during rewriting, the whole
conversion aborts: the walk returns an error whose message has one of the
source's failure shapes for the trimmed reference of one of the document's
image nodes (upload failures additionally carrying the payload byte length),
and `cmdDraftModel` fails with that same error for every draft-creation
collaborator — so no draft is created. -/
theorem imageFailure_aborts_conversion (fetch : String → Except String Bytes)
    (upload : String → Bytes → Except String String) (hash : Bytes → String)
    (baseDir : String) (tokens : List Token) (m : String)
    (hw : rewriteImageTokens fetch upload hash baseDir tokens = .error m) :
    (∃ o, o ∈ imagesOf tokens ∧
      imgFailMsg fetch upload baseDir (jsTrimS (o.getD "")) m) ∧
    (∀ render draftAdd title author digest digestAuto digestN csu thumb mdText,
      cmdDraftModel fetch upload hash baseDir render draftAdd title author digest
        digestAuto digestN csu thumb mdText tokens = .error m) := by
  constructor
  · have post := walkTokens_post fetch upload hash baseDir initRwState tokens
    have hw' : walkTokens fetch upload hash baseDir initRwState tokens = .error m := hw
    rw [hw'] at post
    simpa only [walkTokensPost] using post
  · intro render draftAdd title author digest digestAuto digestN csu thumb mdText
    simp [cmdDraftModel, hw]

/-- C9 (witness): a single-image document whose fetch fails aborts with the
read-failure message naming the reference. -/
theorem imageFailure_aborts_witness :
    ∃ o, o ∈ imagesOf [Token.mk "image" (some "a.png") []] ∧
      imgFailMsg (fun _ => .error "ENOENT") (fun _ _ => .ok "u") "."
        (jsTrimS (o.getD "")) "image read failed for a.png: ENOENT" :=
  (imageFailure_aborts_conversion (fun _ => .error "ENOENT") (fun _ _ => .ok "u")
    unaryHash "." [Token.mk "image" (some "a.png") []]
    "image read failed for a.png: ENOENT" rfl).1

/-- C1: per-conversion image deduplication.  For a successful rewrite with an
injective fingerprint: the payloads of the upload calls have pairwise
distinct fingerprints (at most one upload call per fingerprint), the
`uploaded` URL list has exactly one entry per upload call in order, and for
any two image nodes (positions `i`, `j`) whose non-blank references fetch to
byte-identical content `b`, exactly one upload call was made for `b` and both
nodes' references are rewritten to that call's platform URL. -/
theorem rewriteImageTokens_dedup (fetch : String → Except String Bytes)
    (upload : String → Bytes → Except String String) (hash : Bytes → String)
    (baseDir : String) (hinj : Function.Injective hash)
    (tokens tokens2 : List Token) (st : RwState)
    (hok : rewriteImageTokens fetch upload hash baseDir tokens = .ok (tokens2, st))
    (i j : Nat) (hi : i < (imagesOf tokens).length) (hj : j < (imagesOf tokens).length)
    (b : Bytes)
    (hfi : fetch (jsTrimS (((imagesOf tokens).get ⟨i, hi⟩).getD "")) = .ok b)
    (hfj : fetch (jsTrimS (((imagesOf tokens).get ⟨j, hj⟩).getD "")) = .ok b)
    (hne_i : jsTrimS (((imagesOf tokens).get ⟨i, hi⟩).getD "") ≠ "")
    (hne_j : jsTrimS (((imagesOf tokens).get ⟨j, hj⟩).getD "") ≠ "") :
    (st.uploads.map (fun p => hash p.1)).Nodup ∧
    st.uploaded = st.uploads.map (fun p => p.2) ∧
    (∃ u, st.uploads.filter (fun p => p.1 == b) = [(b, u)] ∧
      ∃ hi2 : i < (imagesOf tokens2).length, ∃ hj2 : j < (imagesOf tokens2).length,
        (imagesOf tokens2).get ⟨i, hi2⟩ = some u ∧
        (imagesOf tokens2).get ⟨j, hj2⟩ = some u) := by
  have post := walkTokens_post fetch upload hash baseDir initRwState tokens
  have hok' : walkTokens fetch upload hash baseDir initRwState tokens =
      .ok (tokens2, st) := hok
  rw [hok'] at post
  simp only [walkTokensPost] at post
  obtain ⟨hmono, hinvp, hrel⟩ := post
  obtain ⟨i1, i2, i3, i4⟩ := hinvp (stInv_init hash)
  have hlen := hrel.length_eq
  have hi2 : i < (imagesOf tokens2).length := hlen ▸ hi
  have hj2 : j < (imagesOf tokens2).length := hlen ▸ hj
  have hri := hrel.get hi hi2
  have hrj := hrel.get hj hj2
  rcases hri with ⟨hblank, _⟩ | ⟨bi, ui, hfbi, hbne_i, hli, hoi⟩
  · exact absurd hblank hne_i
  rcases hrj with ⟨hblank, _⟩ | ⟨bj, uj, hfbj, hbne_j, hlj, hoj⟩
  · exact absurd hblank hne_j
  have hbib : bi = b := Except.ok.inj (hfbi.symm.trans hfi)
  have hbjb : bj = b := Except.ok.inj (hfbj.symm.trans hfj)
  rw [hbib] at hli
  rw [hbjb] at hlj
  have huij : ui = uj := Option.some.inj (hli.symm.trans hlj)
  obtain ⟨b'', hmem'', hhash''⟩ := i4 (hash b) ui hli
  have hb'' : b'' = b := hinj hhash''
  rw [hb''] at hmem''
  refine ⟨i2, i3, ui, uploads_filter_eq hash st.uploads b ui i2 hmem'',
    hi2, hj2, hoi, ?_⟩
  rw [huij]
  exact hoj

/-- Decoding a unary-encoded byte recovers it. -/
theorem unaryDecode_replicate (rest : List Char) (n : Nat) :
    unaryDecode (List.replicate n 'a' ++ 'b' :: rest) = n :: unaryDecode rest := by
  induction n with
  | zero => simp [unaryDecode]
  | succ k ih =>
    simp only [List.replicate_succ, List.cons_append, unaryDecode]
    rw [if_neg (by decide)]
    rw [List.append_eq, ih]

/-- The decoder `unaryDecode` is a left inverse of the unary encoding. -/
theorem unaryDecode_encode (bs : List Nat) :
    unaryDecode (List.flatten (bs.map (fun n => List.replicate n 'a' ++ ['b']))) = bs := by
  induction bs with
  | nil => rfl
  | cons n bs ih =>
    simp only [List.map_cons, List.flatten_cons]
    rw [List.append_assoc, List.singleton_append, unaryDecode_replicate, ih]

/-- The unary fingerprint is injective (collision-free). -/
theorem unaryHash_inj : Function.Injective unaryHash := by
  intro b1 b2 heq
  have h : List.flatten ((b1 : List Nat).map (fun n => List.replicate n 'a' ++ ['b'])) =
      List.flatten ((b2 : List Nat).map (fun n => List.replicate n 'a' ++ ['b'])) :=
    congrArg String.data heq
  have h2 := congrArg unaryDecode h
  rwa [unaryDecode_encode, unaryDecode_encode] at h2

/-- C1 (witness): two image nodes under different references with
byte-identical content trigger exactly one upload call and are both rewritten
to the same platform URL. -/
theorem rewriteImageTokens_dedup_witness :
    (([((([3, 7]) : Bytes), "https://wx/u")].map (fun p => unaryHash p.1)).Nodup) ∧
    (["https://wx/u"] : List String) =
      [((([3, 7]) : Bytes), "https://wx/u")].map (fun p => p.2) ∧
    (∃ u, [((([3, 7]) : Bytes), "https://wx/u")].filter
          (fun p => p.1 == ([3, 7] : Bytes)) = [(([3, 7] : Bytes), u)] ∧
      ∃ hi2 : 0 < (imagesOf [Token.mk "image" (some "https://wx/u") [],
          Token.mk "image" (some "https://wx/u") []]).length,
      ∃ hj2 : 1 < (imagesOf [Token.mk "image" (some "https://wx/u") [],
          Token.mk "image" (some "https://wx/u") []]).length,
        (imagesOf [Token.mk "image" (some "https://wx/u") [],
          Token.mk "image" (some "https://wx/u") []]).get ⟨0, hi2⟩ = some u ∧
        (imagesOf [Token.mk "image" (some "https://wx/u") [],
          Token.mk "image" (some "https://wx/u") []]).get ⟨1, hj2⟩ = some u) :=
  rewriteImageTokens_dedup (fun _ => .ok ([3, 7] : Bytes)) (fun _ _ => .ok "https://wx/u")
    unaryHash "." unaryHash_inj
    [Token.mk "image" (some "a.png") [], Token.mk "image" (some "b.png") []]
    [Token.mk "image" (some "https://wx/u") [], Token.mk "image" (some "https://wx/u") []]
    ⟨[(unaryHash ([3, 7] : Bytes), "https://wx/u")], ["https://wx/u"],
      [(([3, 7] : Bytes), "https://wx/u")]⟩
    rfl 0 1 (by decide) (by decide) ([3, 7] : Bytes) rfl rfl (by decide) (by decide)

/-- Trimming an all-whitespace string yields the empty string. -/
theorem jsTrimL_all_ws (s : List Char) (h : s.all isJsWs = true) : jsTrimL s = [] := by
  have h1 : s.dropWhile isJsWs = [] := by
    rw [List.dropWhile_eq_nil_iff]
    intro x hx
    exact List.all_eq_true.mp h x hx
  simp [jsTrimL, h1]

/-- The digest cleaning pipeline maps whitespace-only input to the empty
string. -/
theorem digestClean_ws (mdText : String) (h : mdText.data.all isJsWs = true) :
    digestClean mdText = [] := by
  have h0 : jsTrimL mdText.data = [] := jsTrimL_all_ws _ h
  simp only [digestClean, h0]
  rfl

/-- C5: `autoDigestFromMarkdown` returns the empty string for empty input,
non-positive `n`, or whitespace-only input; otherwise it returns the cleaned
text unchanged when it fits in `n` codepoints, and exactly the first `n`
codepoints followed by the ellipsis marker exactly when the cleaned text is
longer than `n`. -/
theorem autoDigest_bounds (mdText : String) (n : Int) :
    (mdText = "" ∨ n ≤ 0 → autoDigestFromMarkdown mdText n = "") ∧
    (mdText.data.all isJsWs = true → autoDigestFromMarkdown mdText n = "") ∧
    (mdText ≠ "" → ¬ n ≤ 0 → ((digestClean mdText).length : Int) ≤ n →
      autoDigestFromMarkdown mdText n = String.mk (digestClean mdText)) ∧
    (mdText ≠ "" → ¬ n ≤ 0 → n < ((digestClean mdText).length : Int) →
      autoDigestFromMarkdown mdText n =
        String.mk ((digestClean mdText).take n.toNat) ++ "..." ∧
      (((digestClean mdText).take n.toNat).length : Int) = n) := by
  refine ⟨?_, ?_, ?_, ?_⟩
  · intro h
    simp [autoDigestFromMarkdown, h]
  · intro hws
    by_cases h : mdText = "" ∨ n ≤ 0
    · simp [autoDigestFromMarkdown, h]
    · have hd := digestClean_ws mdText hws
      have hn : (0 : Int) ≤ n := by
        rcases not_or.mp h with ⟨_, hn2⟩
        omega
      have hc : ((List.length ([] : List Char) : Int)) ≤ n := by
        simp only [List.length_nil, Nat.cast_zero]
        exact hn
      simp only [autoDigestFromMarkdown, if_neg h, hd]
      rw [if_pos hc]
  · intro h1 h2 h3
    have hcond : ¬(mdText = "" ∨ n ≤ 0) := not_or.mpr ⟨h1, h2⟩
    simp only [autoDigestFromMarkdown, if_neg hcond]
    rw [if_pos h3]
  · intro h1 h2 h3
    constructor
    · have hcond : ¬(mdText = "" ∨ n ≤ 0) := not_or.mpr ⟨h1, h2⟩
      simp only [autoDigestFromMarkdown, if_neg hcond]
      rw [if_neg (not_le.mpr h3)]
    · rw [List.length_take]
      have h0 : 0 ≤ n := by omega
      have hle : n.toNat ≤ (digestClean mdText).length := by omega
      rw [min_eq_left hle]
      exact Int.toNat_of_nonneg h0

/-- C5 (witness): concrete instances of the digest bounds. -/
theorem autoDigest_bounds_witness :
    autoDigestFromMarkdown "" 5 = "" ∧
    autoDigestFromMarkdown "hello" 0 = "" ∧
    autoDigestFromMarkdown "   " 5 = "" ∧
    autoDigestFromMarkdown "abcdef" 3 =
      String.mk ((digestClean "abcdef").take (3 : Int).toNat) ++ "..." :=
  ⟨(autoDigest_bounds "" 5).1 (Or.inl rfl),
   (autoDigest_bounds "hello" 0).1 (Or.inr (by decide)),
   (autoDigest_bounds "   " 5).2.1 (by decide),
   ((autoDigest_bounds "abcdef" 3).2.2.2 (by decide) (by decide) (by decide)).1⟩

/-- C4: title resolution policy of `cmdDraft`.  The trimmed explicit title
wins when non-empty; otherwise a non-empty front-matter `title:` field;
otherwise a non-empty first level-1 heading; when none yields a title,
resolution fails and (for any collaborators whose image rewriting succeeded)
the conversion stops with the source's missing-title error before any
draft-creation call. -/
theorem title_resolution_chain (explicit : Option String) (mdText : String) :
    (jsTrimS (explicit.getD "") ≠ "" →
      resolveTitle explicit mdText = some (jsTrimS (explicit.getD ""))) ∧
    (jsTrimS (explicit.getD "") = "" → ∀ t, fmTitle mdText = some t → t ≠ "" →
      resolveTitle explicit mdText = some t) ∧
    (jsTrimS (explicit.getD "") = "" → fmTitle mdText = none →
      ∀ h1t, h1Title mdText = some h1t → h1t ≠ "" →
        resolveTitle explicit mdText = some h1t) ∧
    (jsTrimS (explicit.getD "") = "" → extractTitleFromMarkdown mdText = "" →
      resolveTitle explicit mdText = none ∧
      ∀ fetch upload hash baseDir render draftAdd author digest digestAuto digestN
        csu thumb tokens tokens2 st,
        rewriteImageTokens fetch upload hash baseDir tokens = .ok (tokens2, st) →
        cmdDraftModel fetch upload hash baseDir render draftAdd explicit author digest
          digestAuto digestN csu thumb mdText tokens =
          .error "missing title: provide --title or add a markdown title") := by
  refine ⟨?_, ?_, ?_, ?_⟩
  · intro h
    simp [resolveTitle, h]
  · intro he t hfm ht
    have hmd : mdText ≠ "" := by
      intro hmd
      rw [hmd] at hfm
      have : fmTitle "" = none := rfl
      rw [this] at hfm
      cases hfm
    have hex : extractTitleFromMarkdown mdText = t := by
      rw [extractTitleFromMarkdown, if_neg hmd, hfm]
    simp [resolveTitle, he, hex, ht]
  · intro he hfm h1t hh1 hne
    have hmd : mdText ≠ "" := by
      intro hmd
      rw [hmd] at hh1
      have : h1Title "" = none := rfl
      rw [this] at hh1
      cases hh1
    have hex : extractTitleFromMarkdown mdText = h1t := by
      rw [extractTitleFromMarkdown, if_neg hmd, hfm, hh1]
      rfl
    simp [resolveTitle, he, hex, hne]
  · intro he hex
    have hres : resolveTitle explicit mdText = none := by
      simp [resolveTitle, he, hex]
    refine ⟨hres, ?_⟩
    intro fetch upload hash baseDir render draftAdd author digest digestAuto digestN
      csu thumb tokens tokens2 st hrw
    simp [cmdDraftModel, hrw, hres]

/-- C4 (witness): the four resolution outcomes at concrete inputs. -/
theorem title_resolution_witness :
    resolveTitle (some "  Hi ") "whatever" = some "Hi" ∧
    resolveTitle none "---\ntitle: \"Foo\"\n---\n# Bar\n" = some "Foo" ∧
    resolveTitle none "intro\n# Bar\n" = some "Bar" ∧
    resolveTitle none "plain text" = none :=
  ⟨(title_resolution_chain (some "  Hi ") "whatever").1 (by decide),
   (title_resolution_chain none "---\ntitle: \"Foo\"\n---\n# Bar\n").2.1 (by decide)
     "Foo" (by decide) (by decide),
   (title_resolution_chain none "intro\n# Bar\n").2.2.1 (by decide) (by decide)
     "Bar" (by decide) (by decide),
   ((title_resolution_chain none "plain text").2.2.2 (by decide) (by decide)).1⟩

/-- C6 (counterexample): for a remote body image the filename hint is the
generic fallback `img.jpg` even though the reference's final path segment
(`pic.png`) is none of empty, `.` or `/`. -/
theorem filenameHint_counterexample :
    bodyImageFilename "/docs" "https://cdn.example.com/pic.png" = "img.jpg" ∧
    basenamePosix "https://cdn.example.com/pic.png" = "pic.png" ∧
    ("img.jpg" : String) ≠ "pic.png" := by
  refine ⟨by decide, by decide, by decide⟩

/-- C6 (amended): the filename hint is the final path segment only for local
references — `guessFilename` of the resolved path, falling back to the
generic name when the basename is empty, `.` or `/` — while remote URLs
always get the generic name (`img.jpg` for body images, `cover.jpg` for
thumbnails). -/
theorem filenameHint_policy (baseDir src : String) (file : Option String) :
    ((isPrefixL ("http://".data) src.data || isPrefixL ("https://".data) src.data) = true →
      bodyImageFilename baseDir src = "img.jpg") ∧
    ((isPrefixL ("http://".data) src.data || isPrefixL ("https://".data) src.data) = false →
      bodyImageFilename baseDir src =
        guessFilename (if isAbsolutePosix src then src else pathJoin baseDir src)
          "img.jpg") ∧
    (∀ f, file = some f → thumbFilename file = guessFilename f "cover.jpg") ∧
    (file = none → thumbFilename file = "cover.jpg") ∧
    (∀ p fb, guessFilename p fb =
      if p = "" then fb
      else if basenamePosix p ≠ "" ∧ basenamePosix p ≠ "." ∧ basenamePosix p ≠ "/"
        then basenamePosix p else fb) := by
  refine ⟨?_, ?_, ?_, ?_, ?_⟩
  · intro h
    simp [bodyImageFilename, h]
  · intro h
    simp [bodyImageFilename, h]
  · intro f hf
    rw [hf]
    rfl
  · intro hf
    rw [hf]
    rfl
  · intro p fb
    rfl

/-- C6 (witness): the policy at concrete remote, local and thumbnail
inputs. -/
theorem filenameHint_policy_witness :
    bodyImageFilename "/docs" "https://cdn.example.com/pic.png" = "img.jpg" ∧
    bodyImageFilename "/docs" "img/pic.png" =
      guessFilename (if isAbsolutePosix "img/pic.png" then "img/pic.png"
        else pathJoin "/docs" "img/pic.png") "img.jpg" ∧
    thumbFilename (some "/covers/c.jpg") = guessFilename "/covers/c.jpg" "cover.jpg" ∧
    thumbFilename none = "cover.jpg" :=
  ⟨(filenameHint_policy "/docs" "https://cdn.example.com/pic.png" none).1 (by decide),
   (filenameHint_policy "/docs" "img/pic.png" none).2.1 (by decide),
   (filenameHint_policy "/docs" "img/pic.png" (some "/covers/c.jpg")).2.2.1
     "/covers/c.jpg" rfl,
   (filenameHint_policy "/docs" "img/pic.png" none).2.2.2.1 rfl⟩
